import Mathlib

/-! # Counting-semaphore resource pool (`producers.c`)

A shallow embedding of `04-semaphores/practice/lab3-counting-semaphores/producers/main/producers.c`:
the pool of `MAX_RESOURCES` slots, the statistics block, `acquire_resource`,
`release_resource`, one iteration of `producer_task`, one attempt and one cycle of
`load_generator_task`, one pass of each observer, and the interleaving of the tasks
created by `app_main`.

Conventions of the embedding:
* `uint32_t` values are natural numbers, every arithmetic result is reduced modulo `2 ^ 32`;
* `int` values are integers (the indices used here never leave `-1 .. 5`);
* a `char[20]` field is the list of its bytes, a `const char *` argument is the list of
  bytes it points to, and the C string either of them holds ends before the first NUL;
* the GPIO driver is the map from pin number to the level last written.
-/

namespace Producers

/-! ## Configuration (lines 15-27) -/

abbrev LED_RESOURCE_1 : Nat := 2
abbrev LED_RESOURCE_2 : Nat := 4
abbrev LED_RESOURCE_3 : Nat := 5
abbrev LED_RESOURCE_4 : Nat := 21
abbrev LED_RESOURCE_5 : Nat := 22
abbrev LED_PRODUCER : Nat := 18
abbrev MAX_RESOURCES : Nat := 5
abbrev NUM_PRODUCERS : Nat := 8

/-- Number of values of a `uint32_t`. -/
abbrev UINT32_MOD : Nat := 4294967296

/-- The string terminator. -/
def NUL : Char := Char.ofNat 0

/-! ## Data model (lines 33-57) -/

/-- One slot of the pool (`resource_t`, lines 33-39). -/
structure resource_t where
  resource_id : Int
  in_use : Bool
  current_user : List Char
  usage_count : Nat
  total_usage_time : Nat
deriving DecidableEq

/-- The statistics block (`system_stats_t`, lines 50-55). -/
structure system_stats_t where
  total_requests : Nat
  successful_acquisitions : Nat
  failed_acquisitions : Nat
  resources_in_use : Nat
deriving DecidableEq

/-- The file-scope variables of `producers.c` together with the GPIO levels:
`xCountingSemaphore` is represented by its count of free tickets. -/
structure Globals where
  xCountingSemaphore : Nat
  resources : Fin MAX_RESOURCES → resource_t
  stats : system_stats_t
  gpio : Nat → Nat

/-- The initial value of `resources` (lines 41-47). -/
def resources_init : Fin MAX_RESOURCES → resource_t := fun i =>
  { resource_id := (i.val : Int) + 1, in_use := false,
    current_user := List.replicate 20 NUL, usage_count := 0, total_usage_time := 0 }

/-- The initial value of `stats` (line 57). -/
def stats_init : system_stats_t :=
  { total_requests := 0, successful_acquisitions := 0, failed_acquisitions := 0,
    resources_in_use := 0 }

/-! ## Platform services -/

/-- GPIO driver call `gpio_set_level(pin, level)`. -/
def gpio_set_level (pin level : Nat) (gpio : Nat → Nat) : Nat → Nat :=
  Function.update gpio pin level

/-- The C string held in a buffer: the bytes before the first NUL. -/
def c_str (buf : List Char) : List Char := buf.takeWhile (fun c => c ≠ NUL)

/-- The C library call `strncpy(dst, src, n)`: the first `n` bytes of `dst` become the bytes
of the string `src` (at most `n` of them) followed by NULs; nothing is written after them. -/
def strncpy (dst src : List Char) (n : Nat) : List Char :=
  let body := (c_str src).take n
  body ++ List.replicate (n - body.length) NUL ++ dst.drop n

/-- Modelled from the spec: the Admission Gate's `acquire` (the RTOS counting semaphore
behind `xSemaphoreTake` is a platform service outside the repository). With a free ticket
the call is admitted and the count drops by one; with none it times out and the count is
unchanged. Returns the new count and whether the caller was admitted. -/
def xSemaphoreTake (count : Nat) : Nat × Bool :=
  if 0 < count then (count - 1, true) else (count, false)

/-- Modelled from the spec: the Admission Gate's `release` (platform service behind
`xSemaphoreGive`): the count of free tickets goes up by one. -/
def xSemaphoreGive (count : Nat) : Nat := count + 1

/-! ## Helpers (lines 60-94) -/

/-- Translation of `set_resource_led` (lines 60-69). -/
def set_resource_led (idx : Int) (level : Nat) (gpio : Nat → Nat) : Nat → Nat :=
  if idx = 0 then gpio_set_level LED_RESOURCE_1 level gpio
  else if idx = 1 then gpio_set_level LED_RESOURCE_2 level gpio
  else if idx = 2 then gpio_set_level LED_RESOURCE_3 level gpio
  else if idx = 3 then gpio_set_level LED_RESOURCE_4 level gpio
  else if idx = 4 then gpio_set_level LED_RESOURCE_5 level gpio
  else gpio

/-- The body of the `if` in `acquire_resource` (lines 74-79) for slot `i`. -/
def claim_slot (user_name : List Char) (i : Fin MAX_RESOURCES) (g : Globals) : Globals :=
  let r := g.resources i
  let r1 : resource_t :=
    { r with
      in_use := true
      current_user := (strncpy r.current_user user_name (20 - 1)).set (20 - 1) NUL
      usage_count := (r.usage_count + 1) % UINT32_MOD }
  { g with
    resources := Function.update g.resources i r1
    gpio := set_resource_led (i.val : Int) 1 g.gpio
    stats := { g.stats with resources_in_use := (g.stats.resources_in_use + 1) % UINT32_MOD } }

/-- The `for` loop of `acquire_resource` (lines 72-83) from index `i` on; the first argument
bounds the number of iterations left. Returns the new globals and the function result. -/
def acquire_scan (user_name : List Char) (g : Globals) : Nat → Nat → Globals × Int
  | 0, _ => (g, -1)
  | fuel + 1, i =>
    if h : i < MAX_RESOURCES then
      if (g.resources ⟨i, h⟩).in_use = false then
        (claim_slot user_name ⟨i, h⟩ g, (i : Int))
      else acquire_scan user_name g fuel (i + 1)
    else (g, -1)

/-- Translation of `acquire_resource` (lines 71-84). -/
def acquire_resource (user_name : List Char) (g : Globals) : Globals × Int :=
  acquire_scan user_name g MAX_RESOURCES 0

/-- Translation of `release_resource` (lines 86-94). -/
def release_resource (resource_index : Int) (usage_time_ms : Nat) (g : Globals) : Globals :=
  if h : 0 ≤ resource_index ∧ resource_index < (MAX_RESOURCES : Int) then
    let i : Fin MAX_RESOURCES := ⟨resource_index.toNat, by omega⟩
    let r := g.resources i
    let r1 : resource_t :=
      { r with
        in_use := false
        total_usage_time := (r.total_usage_time + usage_time_ms) % UINT32_MOD
        current_user := r.current_user.set 0 NUL }
    { g with
      resources := Function.update g.resources i r1
      gpio := set_resource_led resource_index 0 g.gpio
      stats := { g.stats with
        resources_in_use :=
          if 0 < g.stats.resources_in_use then g.stats.resources_in_use - 1
          else g.stats.resources_in_use } }
  else g

/-- The globals once `app_main` has created the semaphore (line 256) and switched all
LEDs off (lines 247-253). -/
def globals_init : Globals :=
  { xCountingSemaphore := MAX_RESOURCES
    resources := resources_init
    stats := stats_init
    gpio := fun _ => 0 }

/-! ## Tasks (lines 97-143 and 202-232) -/

/-- The `task_name` buffer filled by `snprintf(task_name, 20, "Producer%d", producer_id)`
(lines 99-100). -/
def producer_name (producer_id : Nat) : List Char :=
  (("Producer" ++ toString producer_id).toList).take (20 - 1)

/-- The name the load generator passes to `acquire_resource` (line 213). -/
def loadgen_name : List Char := ("LoadGen").toList

/-- Lines 104-109 of `producer_task`: count the request and pulse the producer LED. -/
def producer_request (g : Globals) : Globals :=
  { g with
    stats := { g.stats with total_requests := (g.stats.total_requests + 1) % UINT32_MOD }
    gpio := gpio_set_level LED_PRODUCER 0 (gpio_set_level LED_PRODUCER 1 g.gpio) }

/-- Lines 114-116 and 135-136 of `producer_task`: the take with its statistics update.
Returns the new globals and whether the producer was admitted. -/
def producer_take (g : Globals) : Globals × Bool :=
  if (xSemaphoreTake g.xCountingSemaphore).2 = true then
    ({ g with
        xCountingSemaphore := (xSemaphoreTake g.xCountingSemaphore).1
        stats := { g.stats with
          successful_acquisitions := (g.stats.successful_acquisitions + 1) % UINT32_MOD } },
      true)
  else
    ({ g with
        stats := { g.stats with
          failed_acquisitions := (g.stats.failed_acquisitions + 1) % UINT32_MOD } },
      false)

/-- Line 123 of `producer_task`: the hold duration drawn from `esp_random() = r`. -/
def producer_use_ms (r : Nat) : Nat := (1000 + r % 3000) % UINT32_MOD

/-- Lines 134 and 220: `xSemaphoreGive(xCountingSemaphore)`. -/
def give_ticket (g : Globals) : Globals :=
  { g with xCountingSemaphore := xSemaphoreGive g.xCountingSemaphore }

/-- One iteration of the `while (1)` loop of `producer_task` (lines 104-141), run without
interruption; `r` is the value `esp_random()` returns at line 123. -/
def producer_iteration (task_name : List Char) (r : Nat) (g : Globals) : Globals :=
  let g1 := producer_request g
  let t := producer_take g1
  if t.2 = true then
    let a := acquire_resource task_name t.1
    let g2 := if 0 ≤ a.2 then release_resource a.2 (producer_use_ms r) a.1 else a.1
    give_ticket g2
  else t.1

/-- Line 212 of `load_generator_task`: the take (no statistics are kept for it). -/
def loadgen_take (g : Globals) : Globals × Bool :=
  if (xSemaphoreTake g.xCountingSemaphore).2 = true then
    ({ g with xCountingSemaphore := (xSemaphoreTake g.xCountingSemaphore).1 }, true)
  else (g, false)

/-- One pass of the inner loop body of `load_generator_task` (lines 212-223), run without
interruption. -/
def load_generator_attempt (g : Globals) : Globals :=
  let t := loadgen_take g
  if t.2 = true then
    let a := acquire_resource loadgen_name t.1
    let g2 := if 0 ≤ a.2 then release_resource a.2 500 a.1 else a.1
    give_ticket g2
  else t.1

/-- A completed piece of work of one task: a producer iteration or a load-generator attempt. -/
inductive Work where
  | producer (producer_id : Nat) (r : Nat)
  | load_generator
deriving DecidableEq

/-- The effect of one completed piece of work. -/
def Work.apply (g : Globals) : Work → Globals
  | .producer producer_id r => producer_iteration (producer_name producer_id) r g
  | .load_generator => load_generator_attempt g

/-- `K` claim/release cycles run one after the other: each takes the slot that
`acquire_resource` returns for the holder and releases it with the given duration. -/
def claim_release_cycles (g : Globals) (cycles : List (List Char × Nat)) : Globals :=
  cycles.foldl (fun g c => release_resource (acquire_resource c.1 g).2 c.2 (acquire_resource c.1 g).1) g

/-! ## Interleaving of the tasks created by `app_main` (lines 264-276) -/

/-- The tasks that use the pool: the producers and the load generator. -/
inductive TaskKind where
  | producer (producer_id : Nat)
  | load_generator
deriving DecidableEq

/-- Where a task stands in its loop body. -/
inductive Pc where
  /-- Between two requests. -/
  | top
  /-- At the call of `xSemaphoreTake` (lines 114, 212). -/
  | waiting
  /-- The take succeeded; at the call of `acquire_resource` (lines 118, 213). -/
  | admitted
  /-- A slot was returned; at the call of `release_resource` (lines 129, 217). -/
  | holding (res_idx : Int) (use_ms : Nat)
  /-- At the call of `xSemaphoreGive` (lines 134, 220). -/
  | giving
deriving DecidableEq

/-- The name a task passes to `acquire_resource`. -/
def TaskKind.name : TaskKind → List Char
  | .producer producer_id => producer_name producer_id
  | .load_generator => loadgen_name

/-- The duration a task holds a slot for (lines 123 and 216-217). -/
def TaskKind.use_ms (r : Nat) : TaskKind → Nat
  | .producer _ => producer_use_ms r
  | .load_generator => 500

/-- One step of a task: the statements up to and including its next call on the gate or
the pool. `r` is the value of `esp_random()` should the step draw one. -/
def task_step (k : TaskKind) (r : Nat) (pc : Pc) (g : Globals) : Pc × Globals :=
  match pc with
  | .top =>
    match k with
    | .producer _ => (.waiting, producer_request g)
    | .load_generator => (.waiting, g)
  | .waiting =>
    let t := match k with
      | .producer _ => producer_take g
      | .load_generator => loadgen_take g
    if t.2 = true then (.admitted, t.1) else (.top, t.1)
  | .admitted =>
    let a := acquire_resource k.name g
    if 0 ≤ a.2 then (.holding a.2 (k.use_ms r), a.1) else (.giving, a.1)
  | .holding res_idx use_ms => (.giving, release_resource res_idx use_ms g)
  | .giving => (.top, give_ticket g)

/-- Eight producers and the load generator. -/
abbrev NUM_TASKS : Nat := NUM_PRODUCERS + 1

/-- Task `t` of the system: `producer_ids[t] = t + 1` for the producers (line 264), the
load generator last. -/
def task_kind (t : Fin NUM_TASKS) : TaskKind :=
  if t.val < NUM_PRODUCERS then .producer (t.val + 1) else .load_generator

/-- The globals and the position of every task. -/
structure System where
  g : Globals
  pc : Fin NUM_TASKS → Pc

/-- The system when `app_main` has created the tasks. -/
def system_init : System := { g := globals_init, pc := fun _ => .top }

/-- The scheduler lets task `ev.1` make its next step; `ev.2` is the random value. -/
def system_step (s : System) (ev : Fin NUM_TASKS × Nat) : System :=
  { g := (task_step (task_kind ev.1) ev.2 (s.pc ev.1) s.g).2
    pc := Function.update s.pc ev.1 (task_step (task_kind ev.1) ev.2 (s.pc ev.1) s.g).1 }

/-- The system after a schedule. -/
def run (s : System) (evs : List (Fin NUM_TASKS × Nat)) : System := evs.foldl system_step s

/-- Whether a task at this position has taken a ticket it has not yet given back. -/
def Pc.holds_ticket : Pc → Bool
  | .admitted => true
  | .holding _ _ => true
  | .giving => true
  | _ => false

/-- Whether a task at this position has a claimed slot it has not yet released. -/
def Pc.holds_slot : Pc → Bool
  | .holding _ _ => true
  | _ => false

/-- Number of slots with `in_use = true`. -/
def occupied (g : Globals) : Nat :=
  ∑ i : Fin MAX_RESOURCES, if (g.resources i).in_use = true then 1 else 0

/-- Number of tasks that hold a ticket. -/
def ticket_holders (s : System) : Nat :=
  ∑ t : Fin NUM_TASKS, if (s.pc t).holds_ticket = true then 1 else 0

/-- Number of tasks that hold a slot. -/
def slot_holders (s : System) : Nat :=
  ∑ t : Fin NUM_TASKS, if (s.pc t).holds_slot = true then 1 else 0

/-- What the gate and the pool keep true together along every schedule. -/
structure Consistent (s : System) : Prop where
  tickets : s.g.xCountingSemaphore + ticket_holders s = MAX_RESOURCES
  held_in_use : ∀ t res_idx use_ms, s.pc t = .holding res_idx use_ms →
    ∃ i : Fin MAX_RESOURCES, res_idx = (i.val : Int) ∧ (s.g.resources i).in_use = true
  held_distinct : ∀ t t' res_idx use_ms res_idx' use_ms', t ≠ t' →
    s.pc t = .holding res_idx use_ms → s.pc t' = .holding res_idx' use_ms' → res_idx ≠ res_idx'
  occupied_eq : occupied s.g = slot_holders s

/-! ## Request accounting along a schedule -/

/-- Whether the task is one of the producers (the only tasks that update `stats`). -/
def TaskKind.is_producer : TaskKind → Bool
  | .producer _ => true
  | .load_generator => false

/-- Number of producers whose request is counted (line 104) and whose take (line 114) has
not returned yet. -/
def in_flight (s : System) : Nat :=
  ∑ t : Fin NUM_TASKS, if (task_kind t).is_producer = true ∧ s.pc t = .waiting then 1 else 0

/-- Number of executions of `stats.total_requests++` (line 104) along a schedule. -/
def requests_made : System → List (Fin NUM_TASKS × Nat) → Nat
  | _, [] => 0
  | s, ev :: evs =>
    (if (task_kind ev.1).is_producer = true ∧ s.pc ev.1 = .top then 1 else 0)
      + requests_made (system_step s ev) evs

/-- Modelled from the spec: creation of the Admission Gate (the RTOS call
`xSemaphoreCreateCounting(uxMaxCount, uxInitialCount)` is a platform service outside the
repository): the gate is described by its maximum and its initial count of free tickets. -/
def xSemaphoreCreateCounting (uxMaxCount uxInitialCount : Nat) : Nat × Nat :=
  (uxMaxCount, uxInitialCount)

/-- Line 256 of `app_main`. -/
def app_main_semaphore : Nat × Nat := xSemaphoreCreateCounting MAX_RESOURCES MAX_RESOURCES

/-! ## Sequences of calls on the pool -/

/-- A call of `acquire_resource` or of `release_resource`. -/
inductive PoolOp where
  | acquire (user_name : List Char)
  | release (resource_index : Int) (usage_time_ms : Nat)
deriving DecidableEq

/-- The globals after one call on the pool. -/
def PoolOp.apply (g : Globals) : PoolOp → Globals
  | .acquire user_name => (acquire_resource user_name g).1
  | .release resource_index usage_time_ms => release_resource resource_index usage_time_ms g

/-- The globals after a sequence of calls on the pool, whatever the calls are. -/
def run_pool (g : Globals) (ops : List PoolOp) : Globals := ops.foldl PoolOp.apply g

/-- A sequence of calls run with the callers' bookkeeping: `held` lists the indices that
`acquire_resource` has returned and that have not been released since. A release of an
index that is not in `held` is not well formed and ends the trace with `none`. -/
def pool_trace : Globals → List Int → List PoolOp → Option (Globals × List Int)
  | g, held, [] => some (g, held)
  | g, held, .acquire user_name :: ops =>
    pool_trace (acquire_resource user_name g).1
      (if 0 ≤ (acquire_resource user_name g).2 then (acquire_resource user_name g).2 :: held
       else held) ops
  | g, held, .release resource_index usage_time_ms :: ops =>
    if resource_index ∈ held then
      pool_trace (release_resource resource_index usage_time_ms g) (held.erase resource_index)
        ops
    else none

/-- Number of releases of slot `i` in a sequence of calls: in a well-formed sequence, the
number of completed claim/release cycles on that slot. -/
def completed_cycles (i : Fin MAX_RESOURCES) (ops : List PoolOp) : Nat :=
  ops.countP (fun op =>
    match op with
    | .release resource_index _ => decide (resource_index = (i.val : Int))
    | .acquire _ => false)

/-- What holds of the pool and of the callers' bookkeeping along a well-formed sequence of
calls; `cycles i` is the number of completed claim/release cycles on slot `i`. -/
structure PoolConsistent (g : Globals) (held : List Int) (cycles : Fin MAX_RESOURCES → Nat) :
    Prop where
  nodup : held.Nodup
  held_in_use : ∀ idx ∈ held,
    ∃ i : Fin MAX_RESOURCES, idx = (i.val : Int) ∧ (g.resources i).in_use = true
  in_use_held : ∀ i : Fin MAX_RESOURCES, (g.resources i).in_use = true → (i.val : Int) ∈ held
  gauge : g.stats.resources_in_use = occupied g
  usage : ∀ i : Fin MAX_RESOURCES, (g.resources i).usage_count
    = (cycles i + (if (g.resources i).in_use = true then 1 else 0)) % UINT32_MOD

/-! ## Observers (lines 145-200) -/

/-- A line written by an observer, with the values it prints. -/
inductive Report where
  | pool_status (available used : Int)
  | slot_busy (number : Nat) (user : List Char) (uses : Nat)
  | slot_free (number : Nat) (uses : Nat)
  | pool_cell (busy : Bool)
  | pool_available (available : Int)
  | statistics (total_requests successful failed in_use : Nat)
  | success_rate (successful total : Nat)
  | slot_usage (number uses time : Nat)
  | totals (total_uses total_time : Nat)
deriving DecidableEq

/-- Modelled from the spec: an observer reads the count of free tickets of the gate
(`uxSemaphoreGetCount`, a platform service); the count is not changed. -/
def uxSemaphoreGetCount (count : Nat) : Nat := count

/-- Translation of `ESP_LOGI` / `printf`: a line goes to the console, the globals are not
touched. -/
def console_write (line : Report) (x : Globals × List Report) : Globals × List Report :=
  (x.1, x.2 ++ [line])

/-- The first `for` loop of `resource_monitor_task` (lines 156-164) from index `i` on. -/
def monitor_slots : Nat → Nat → Globals × List Report → Globals × List Report
  | 0, _, x => x
  | fuel + 1, i, x =>
    if h : i < MAX_RESOURCES then
      monitor_slots fuel (i + 1)
        (if (x.1.resources ⟨i, h⟩).in_use = true then
          console_write (.slot_busy (i + 1) (c_str (x.1.resources ⟨i, h⟩).current_user)
            (x.1.resources ⟨i, h⟩).usage_count) x
        else console_write (.slot_free (i + 1) (x.1.resources ⟨i, h⟩).usage_count) x)
    else x

/-- The second `for` loop of `resource_monitor_task` (line 167) from index `i` on. -/
def monitor_cells : Nat → Nat → Globals × List Report → Globals × List Report
  | 0, _, x => x
  | fuel + 1, i, x =>
    if h : i < MAX_RESOURCES then
      monitor_cells fuel (i + 1) (console_write (.pool_cell (x.1.resources ⟨i, h⟩).in_use) x)
    else x

/-- One pass of the loop of `resource_monitor_task` (lines 150-169): the globals after it
and the lines it wrote. -/
def resource_monitor_pass (g : Globals) : Globals × List Report :=
  let available : Int := ((uxSemaphoreGetCount g.xCountingSemaphore : Nat) : Int)
  let used : Int := (MAX_RESOURCES : Int) - available
  let x1 := console_write (.pool_status available used) (g, [])
  let x2 := monitor_slots MAX_RESOURCES 0 x1
  let x3 := monitor_cells MAX_RESOURCES 0 x2
  console_write (.pool_available available) x3

/-- The `for` loop of `statistics_task` (lines 190-195) from index `i` on, with the running
sums `total_uses` and `total_time`. -/
def statistics_slots : Nat → Nat → Nat → Nat → Globals × List Report →
    (Globals × List Report) × Nat × Nat
  | 0, _, total_uses, total_time, x => (x, total_uses, total_time)
  | fuel + 1, i, total_uses, total_time, x =>
    if h : i < MAX_RESOURCES then
      statistics_slots fuel (i + 1)
        ((total_uses + (x.1.resources ⟨i, h⟩).usage_count) % UINT32_MOD)
        ((total_time + (x.1.resources ⟨i, h⟩).total_usage_time) % UINT32_MOD)
        (console_write (.slot_usage (i + 1) (x.1.resources ⟨i, h⟩).usage_count
          (x.1.resources ⟨i, h⟩).total_usage_time) x)
    else (x, total_uses, total_time)

/-- One pass of the loop of `statistics_task` (lines 178-198): the globals after it and the
lines it wrote. The success rate is reported by the two counters it is computed from. -/
def statistics_pass (g : Globals) : Globals × List Report :=
  let x1 := console_write (.statistics g.stats.total_requests g.stats.successful_acquisitions
    g.stats.failed_acquisitions g.stats.resources_in_use) (g, [])
  let x2 := if 0 < x1.1.stats.total_requests then
      console_write (.success_rate x1.1.stats.successful_acquisitions
        x1.1.stats.total_requests) x1
    else x1
  let x3 := statistics_slots MAX_RESOURCES 0 0 0 x2
  console_write (.totals x3.2.1 x3.2.2) x3.1

/-! ## One cycle of the load generator (lines 205-230) -/

/-- What the load generator does that others can see: its delays, its writes of the system
LED and its calls on the gate and on the pool, with the values passed and returned. -/
inductive LoadGenEvent where
  | delay (ms : Nat)
  | led (level : Nat)
  | take (admitted : Bool)
  | acquire (res_idx : Int)
  | release (res_idx : Int) (usage_time_ms : Nat)
  | give
deriving DecidableEq

/-- Translation of `vTaskDelay`: while the load generator sleeps the other tasks run;
`others n` is what they do to the globals during the delay that is the `n`-th event of the
load generator. -/
def vTaskDelay (others : Nat → Globals → Globals) (ms : Nat)
    (x : Globals × List LoadGenEvent) : Globals × List LoadGenEvent :=
  (others x.2.length x.1, x.2 ++ [.delay ms])

/-- The body of the inner `for` loop of `load_generator_task` (lines 212-224) with the
events it produces. -/
def load_generator_attempt_events (others : Nat → Globals → Globals)
    (x : Globals × List LoadGenEvent) : Globals × List LoadGenEvent :=
  let t := loadgen_take x.1
  let x1 : Globals × List LoadGenEvent := (t.1, x.2 ++ [.take t.2])
  let x4 : Globals × List LoadGenEvent :=
    if t.2 = true then
      let a := acquire_resource loadgen_name x1.1
      let x2 : Globals × List LoadGenEvent := (a.1, x1.2 ++ [.acquire a.2])
      let x3 : Globals × List LoadGenEvent :=
        if 0 ≤ a.2 then
          let y := vTaskDelay others 500 x2
          (release_resource a.2 500 y.1, y.2 ++ [.release a.2 500])
        else x2
      (give_ticket x3.1, x3.2 ++ [.give])
    else x1
  vTaskDelay others 200 x4

/-- One event checked against what the caller holds: `st.1` tells whether it holds a
ticket, `st.2` is the slot it holds. A take needs no ticket in hand, a claim needs a ticket
and no slot, a release must be of the slot in hand with duration 500, a give needs the
ticket and no slot. The result is the new holdings, or `none` when the event is out of
order. -/
def holdings_step (st : Bool × Option Int) : LoadGenEvent → Option (Bool × Option Int)
  | .delay _ => some st
  | .led _ => some st
  | .take admitted => if st.1 = false ∧ st.2 = none then some (admitted, none) else none
  | .acquire res_idx =>
    if st.1 = true ∧ st.2 = none then some (true, if 0 ≤ res_idx then some res_idx else none)
    else none
  | .release res_idx usage_time_ms =>
    if st.1 = true ∧ st.2 = some res_idx ∧ usage_time_ms = 500 then some (true, none) else none
  | .give => if st.1 = true ∧ st.2 = none then some (false, none) else none

/-- The holdings after a sequence of events, `none` as soon as an event is out of order. -/
def holdings_run : Bool × Option Int → List LoadGenEvent → Option (Bool × Option Int)
  | st, [] => some st
  | st, e :: es =>
    match holdings_step st e with
    | some st1 => holdings_run st1 es
    | none => none

/-- The pool `[occupied, free, free, free, free]`: slot 0 claimed once on the fresh pool. -/
def pool_first_taken : Globals := claim_slot loadgen_name 0 globals_init

/-- A fresh pool whose slot 0 has both 32-bit counters at their largest value. -/
def pool_worn : Globals :=
  { globals_init with
    resources := Function.update resources_init 0
      { resources_init 0 with usage_count := 4294967295, total_usage_time := 4294967295 } }

/-- A holder name of 20 characters. -/
def long_name : List Char := List.replicate 20 (Char.ofNat 65)

/-- The globals when every ticket has been taken. -/
def globals_no_ticket : Globals := { globals_init with xCountingSemaphore := 0 }

/-- Line 141 of `producer_task`: the delay before the next request, drawn from
`esp_random() = r`. -/
def producer_backoff_ms (r : Nat) : Nat := (1500 + r % 2500) % UINT32_MOD

/-- The pool with all five slots claimed, by five claims on the fresh pool. -/
def pool_full : Globals :=
  run_pool globals_init
    [.acquire (producer_name 1), .acquire (producer_name 2), .acquire (producer_name 3),
      .acquire (producer_name 4), .acquire (producer_name 5)]

/-- Two claims followed by a release of slot 0 and a second release of slot 0. -/
def ops_double_release : List PoolOp :=
  [.acquire (producer_name 1), .acquire (producer_name 2), .release 0 1000, .release 0 1000]

end Producers

/-! # Manual time-sharing scheduler (`p3.c`)

A shallow embedding of `00-multitasking-evolution/practice/p2_time-share/p3/main/p3.c`:
the file-scope metrics, the four simulated tasks and `manual_scheduler`. The console is
the list of lines the simulated tasks log: which task ran and the count it printed. -/

namespace TimeSharing

abbrev LED1_PIN : Nat := 2
abbrev LED2_PIN : Nat := 4
abbrev LED3_PIN : Nat := 5
abbrev LED4_PIN : Nat := 18

/-- Number of values of a `uint32_t`. -/
abbrev UINT32_MOD : Nat := 4294967296

/-- Number of values of a `uint64_t`. -/
abbrev UINT64_MOD : Nat := 18446744073709551616

/-- The enumeration `task_id_t` (lines 17-23) without its last enumerator `TASK_COUNT`. -/
inductive task_id_t where
  | TASK_SENSOR
  | TASK_PROCESS
  | TASK_ACTUATOR
  | TASK_DISPLAY
deriving DecidableEq

/-- The value of an enumerator. -/
def task_id_t.value : task_id_t → Nat
  | .TASK_SENSOR => 0
  | .TASK_PROCESS => 1
  | .TASK_ACTUATOR => 2
  | .TASK_DISPLAY => 3

/-- The enumerator `TASK_COUNT` (line 22). -/
abbrev TASK_COUNT : Nat := 4

/-- The file-scope metrics (lines 29-31), the `static` counters of the simulated tasks
(lines 36, 45, 54, 63), the GPIO levels and the console. -/
structure State where
  task_counter : Nat
  context_switch_time : Nat
  context_switches : Nat
  sensor_count : Nat
  process_count : Nat
  actuator_count : Nat
  display_count : Nat
  gpio : Nat → Nat
  console : List (task_id_t × Nat)

/-- GPIO driver call `gpio_set_level(pin, level)`. -/
def gpio_set_level (pin level : Nat) (gpio : Nat → Nat) : Nat → Nat :=
  Function.update gpio pin level

/-- Translation of `simulate_sensor_task` (lines 34-41). -/
def simulate_sensor_task (s : State) : State :=
  { s with
    console := s.console ++ [(.TASK_SENSOR, s.sensor_count)]
    sensor_count := (s.sensor_count + 1) % UINT32_MOD
    gpio := gpio_set_level LED1_PIN 0 (gpio_set_level LED1_PIN 1 s.gpio) }

/-- Translation of `simulate_processing_task` (lines 43-50). -/
def simulate_processing_task (s : State) : State :=
  { s with
    console := s.console ++ [(.TASK_PROCESS, s.process_count)]
    process_count := (s.process_count + 1) % UINT32_MOD
    gpio := gpio_set_level LED2_PIN 0 (gpio_set_level LED2_PIN 1 s.gpio) }

/-- Translation of `simulate_actuator_task` (lines 52-59). -/
def simulate_actuator_task (s : State) : State :=
  { s with
    console := s.console ++ [(.TASK_ACTUATOR, s.actuator_count)]
    actuator_count := (s.actuator_count + 1) % UINT32_MOD
    gpio := gpio_set_level LED3_PIN 0 (gpio_set_level LED3_PIN 1 s.gpio) }

/-- Translation of `simulate_display_task` (lines 61-68). -/
def simulate_display_task (s : State) : State :=
  { s with
    console := s.console ++ [(.TASK_DISPLAY, s.display_count)]
    display_count := (s.display_count + 1) % UINT32_MOD
    gpio := gpio_set_level LED4_PIN 0 (gpio_set_level LED4_PIN 1 s.gpio) }

/-- Translation of `manual_scheduler` (lines 71-94); `start_time` and `end_time` are the
values `esp_timer_get_time()` returns at lines 73 and 90. -/
def manual_scheduler (start_time end_time : Nat) (s : State) : State :=
  let s1 := { s with context_switches := (s.context_switches + 1) % UINT32_MOD }
  let s2 :=
    if s1.task_counter % TASK_COUNT = task_id_t.TASK_SENSOR.value then
      simulate_sensor_task s1
    else if s1.task_counter % TASK_COUNT = task_id_t.TASK_PROCESS.value then
      simulate_processing_task s1
    else if s1.task_counter % TASK_COUNT = task_id_t.TASK_ACTUATOR.value then
      simulate_actuator_task s1
    else if s1.task_counter % TASK_COUNT = task_id_t.TASK_DISPLAY.value then
      simulate_display_task s1
    else s1
  let s3 := { s2 with
    context_switch_time :=
      (s2.context_switch_time + (end_time + UINT64_MOD - start_time) % UINT64_MOD)
        % UINT64_MOD }
  { s3 with task_counter := (s3.task_counter + 1) % UINT32_MOD }

/-- The state after the calls of `manual_scheduler` made one after the other, each with
its two timer readings. -/
def run_scheduler (s : State) (times : List (Nat × Nat)) : State :=
  times.foldl (fun st t => manual_scheduler t.1 t.2 st) s

/-- The state when `app_main` has reset the metrics (lines 173-175). -/
def state_init : State :=
  { task_counter := 0, context_switch_time := 0, context_switches := 0, sensor_count := 0,
    process_count := 0, actuator_count := 0, display_count := 0, gpio := fun _ => 0,
    console := [] }

/-- The reset of the metrics that precedes each loop of calls of `manual_scheduler`
(lines 108-110 in `variable_time_slice_experiment`, lines 173-175 in `app_main`). -/
def reset_metrics (s : State) : State :=
  { s with context_switches := 0, context_switch_time := 0, task_counter := 0 }

/-- The task numbered `n` in the fixed order sensor, processing, actuator, display. -/
def task_numbered (n : Nat) : task_id_t :=
  if n = 0 then .TASK_SENSOR
  else if n = 1 then .TASK_PROCESS
  else if n = 2 then .TASK_ACTUATOR
  else .TASK_DISPLAY

/-- The tasks run since the console was `before` lines long, in the order they ran. -/
def tasks_run (before : Nat) (s : State) : List task_id_t :=
  (s.console.drop before).map Prod.fst

end TimeSharing

/-! # Stack monitor (`ex1.c`, `lab3_step2.c`, `lab3_step3.c`)

A shallow embedding of `stack_monitor_task` and `test_stack_sizes` of
`02-tasks-and-scheduling/practice/p3`. A task handle is represented by the high-water mark
(in words) that `uxTaskGetStackHighWaterMark` returns for it, `none` for a `NULL` handle.
`sizeof(StackType_t)` and the width of `configSTACK_DEPTH_TYPE` are platform declarations
and are parameters (`word_size`, `depth_mod`). -/

namespace StackMonitor

abbrev LED_OK : Nat := 2
abbrev LED_WARNING : Nat := 4
abbrev STACK_WARNING_THRESHOLD : Nat := 512
abbrev STACK_CRITICAL_THRESHOLD : Nat := 256
abbrev MAX_TEST_TASKS : Nat := 4

/-- Number of values of a `uint32_t`. -/
abbrev UINT32_MOD : Nat := 4294967296

/-- GPIO driver call `gpio_set_level(pin, level)`. -/
def gpio_set_level (pin level : Nat) (gpio : Nat → Nat) : Nat → Nat :=
  Function.update gpio pin level

/-- The reading in bytes, `rem_words * sizeof(StackType_t)` as a `uint32_t`
(`ex1.c` lines 127 and 146, `lab3_step2.c` line 48). -/
def rem_bytes (word_size rem_words : Nat) : Nat := (rem_words * word_size) % UINT32_MOD

/-- The threshold test on one reading (`ex1.c` lines 130-134 and 149-153, `lab3_step2.c`
lines 51-52); the flags are `(warn, crit)`. -/
def check_reading (bytes : Nat) (flags : Bool × Bool) : Bool × Bool :=
  if bytes < STACK_CRITICAL_THRESHOLD then (flags.1, true)
  else if bytes < STACK_WARNING_THRESHOLD then (true, flags.2)
  else flags

/-- A reporting loop over `count` handles from index `i` on (`ex1.c` lines 124-136 and
139-154, `lab3_step2.c` lines 45-54): a `NULL` handle is skipped. -/
def report_loop (word_size : Nat) (handles : Nat → Option Nat) (count : Nat) :
    Nat → Nat → Bool × Bool → Bool × Bool
  | 0, _, flags => flags
  | fuel + 1, i, flags =>
    if i < count then
      report_loop word_size handles count fuel (i + 1)
        (match handles i with
          | some rem_words => check_reading (rem_bytes word_size rem_words) flags
          | none => flags)
    else flags

/-- The blink loop of the critical branch (`ex1.c` lines 158-161). -/
def blink_warning : Nat → (Nat → Nat) → (Nat → Nat)
  | 0, gpio => gpio
  | n + 1, gpio =>
    blink_warning n (gpio_set_level LED_WARNING 0 (gpio_set_level LED_WARNING 1 gpio))

/-- The status LEDs (`ex1.c` lines 157-169, `lab3_step2.c` lines 56-67); `blinks` is the
bound of the blink loop. -/
def led_status (blinks : Nat) (flags : Bool × Bool) (gpio : Nat → Nat) : Nat → Nat :=
  if flags.2 = true then gpio_set_level LED_OK 0 (blink_warning blinks gpio)
  else if flags.1 = true then gpio_set_level LED_OK 0 (gpio_set_level LED_WARNING 1 gpio)
  else gpio_set_level LED_WARNING 0 (gpio_set_level LED_OK 1 gpio)

/-- One pass of the loop of `stack_monitor_task` in `ex1.c` (lines 117-175): the GPIO
levels after it. The three core handles come first, then `test_handle_count` test
handles; the blink loop runs 8 times. -/
def stack_monitor_pass (word_size : Nat) (core_tasks test_handles : Nat → Option Nat)
    (test_handle_count : Nat) (gpio : Nat → Nat) : Nat → Nat :=
  led_status 8
    (report_loop word_size test_handles test_handle_count test_handle_count 0
      (report_loop word_size core_tasks 3 3 0 (false, false)))
    gpio

/-- One pass of the loop of `stack_monitor_task` in `lab3_step2.c` and `lab3_step3.c`
(lines 33-72): four handles, the blink loop runs 10 times. -/
def stack_monitor_pass_lab3 (word_size : Nat) (tasks : Nat → Option Nat)
    (gpio : Nat → Nat) : Nat → Nat :=
  led_status 10 (report_loop word_size tasks 4 4 0 (false, false)) gpio

/-- The readings in bytes of the first `count` handles, those of `NULL` handles left out. -/
def readings (word_size : Nat) (handles : Nat → Option Nat) (count : Nat) : List Nat :=
  ((List.range count).filterMap handles).map (rem_bytes word_size)

/-- The macro `BYTES_TO_WORDS(b)` (`ex1.c` lines 22-24). -/
def BYTES_TO_WORDS (word_size b : Nat) : Nat := b / word_size

/-- Lines 191-196 of `test_stack_sizes`: the depth passed to `xTaskCreate` for a requested
size of `b` bytes; both casts are to `configSTACK_DEPTH_TYPE`. -/
def stack_depth (word_size depth_mod b : Nat) : Nat :=
  let stack_words := BYTES_TO_WORDS word_size b % depth_mod
  let min_words := BYTES_TO_WORDS word_size 768 % depth_mod
  if stack_words < min_words then min_words else stack_words

/-- The array `test_sizes_bytes` (line 184). -/
def test_sizes_bytes : List Nat := [2048, 4096]

/-- The `for` loop of `test_stack_sizes` (lines 187-208) from index `i` on; `created i`
tells whether the `i`-th `xTaskCreate` returned `pdPASS`. Returns `test_handle_count` and
the depths passed to `xTaskCreate`, in order. -/
def test_stack_sizes_loop (word_size depth_mod : Nat) (created : Nat → Bool) :
    Nat → Nat → Nat → List Nat → Nat × List Nat
  | 0, _, test_handle_count, depths => (test_handle_count, depths)
  | fuel + 1, i, test_handle_count, depths =>
    if i < test_sizes_bytes.length ∧ test_handle_count < MAX_TEST_TASKS then
      test_stack_sizes_loop word_size depth_mod created fuel (i + 1)
        (if created i = true then (test_handle_count + 1) % 256 else test_handle_count)
        (depths ++ [stack_depth word_size depth_mod (test_sizes_bytes.getD i 0)])
    else (test_handle_count, depths)

/-- Translation of `test_stack_sizes` (lines 181-209). -/
def test_stack_sizes (word_size depth_mod : Nat) (created : Nat → Bool)
    (test_handle_count : Nat) : Nat × List Nat :=
  test_stack_sizes_loop word_size depth_mod created test_sizes_bytes.length 0
    test_handle_count []

/-- The status indication as the specification words it, for the readings `rs` (in bytes)
and the GPIO levels `gpio` at the end of the pass: the OK LED is on if and only if no
reading is below the warning threshold, and then the warning LED is off; with a reading
below the critical threshold both LEDs are off; otherwise, with a reading below the warning
threshold, the warning LED is on and the OK LED is off. -/
def StatusIndication (rs : List Nat) (gpio : Nat → Nat) : Prop :=
  (gpio LED_OK = 1 ↔ ∀ r ∈ rs, STACK_WARNING_THRESHOLD ≤ r) ∧
  ((∀ r ∈ rs, STACK_WARNING_THRESHOLD ≤ r) → gpio LED_WARNING = 0) ∧
  ((∃ r ∈ rs, r < STACK_CRITICAL_THRESHOLD) → gpio LED_OK = 0 ∧ gpio LED_WARNING = 0) ∧
  ((∃ r ∈ rs, r < STACK_WARNING_THRESHOLD) → (∀ r ∈ rs, STACK_CRITICAL_THRESHOLD ≤ r) →
    gpio LED_WARNING = 1 ∧ gpio LED_OK = 0)

/-- Handles used in the examples: readings of 900, 300, 100 and 600 words. -/
def handles_example : Nat → Option Nat := fun i =>
  if i = 0 then some 900 else if i = 1 then some 300 else if i = 2 then some 100
  else if i = 3 then some 600 else none

end StackMonitor

/-! # Unprotected shared resource (`mutex.c`)

A shallow embedding of `04-semaphores/practice/lab2-mutex-critical-sections/mutex/main/mutex.c`:
the shared record, `calculate_checksum`, the read phase and the write phase of
`access_shared_resource`, the check of `monitor_task`, and the interleaving of the three
accessing tasks and the monitor at whole phases. A `char` is its value as a natural number
(0 is the terminator), a buffer is the list of its bytes. -/

namespace Mutex

abbrev LED_TASK1 : Nat := 2
abbrev LED_TASK2 : Nat := 4
abbrev LED_TASK3 : Nat := 5
abbrev LED_CRITICAL : Nat := 18

/-- Number of values of a `uint32_t`. -/
abbrev UINT32_MOD : Nat := 4294967296

/-- The shared record (`shared_resource_t`, lines 23-28). -/
structure shared_resource_t where
  counter : Nat
  shared_buffer : List Nat
  checksum : Nat
  access_count : Nat
deriving DecidableEq

/-- The statistics (`access_stats_t`, lines 33-38). -/
structure access_stats_t where
  successful_access : Nat
  failed_access : Nat
  corruption_detected : Nat
  priority_inversions : Nat
deriving DecidableEq

/-- The file-scope variables of `mutex.c` together with the GPIO levels. -/
structure Globals where
  shared_data : shared_resource_t
  stats : access_stats_t
  gpio : Nat → Nat

/-- GPIO driver call `gpio_set_level(pin, level)`. -/
def gpio_set_level (pin level : Nat) (gpio : Nat → Nat) : Nat → Nat :=
  Function.update gpio pin level

/-- The C string held in a buffer: the bytes before the first terminator. -/
def c_str (buf : List Nat) : List Nat := buf.takeWhile (fun c => c ≠ 0)

/-- The bytes of an ASCII string literal. -/
def ascii (text : String) : List Nat := text.toList.map Char.toNat

/-- The `for` loop of `calculate_checksum` (lines 45-47) on the bytes from index `i` on,
with the running `sum`. -/
def checksum_loop : List Nat → Nat → Nat → Nat
  | [], _, sum => sum
  | c :: rest, i, sum =>
    if c = 0 then sum
    else checksum_loop rest (i + 1)
      ((sum + (c % UINT32_MOD) * ((i + 1) % UINT32_MOD)) % UINT32_MOD)

/-- Translation of `calculate_checksum` (lines 43-49). -/
def calculate_checksum (data : List Nat) (counter : Nat) : Nat := checksum_loop data 0 counter

/-- The C library call `strcpy(dst, src)`: the string of `src` and its terminator are
written at the start of `dst`. -/
def strcpy (dst src : List Nat) : List Nat :=
  c_str src ++ 0 :: dst.drop ((c_str src).length + 1)

/-- The C library call `snprintf(dst, size, ...)` whose formatted output is `text`: at
most `size - 1` bytes of it and a terminator are written at the start of `dst`. -/
def snprintf (dst : List Nat) (size : Nat) (text : List Nat) : List Nat :=
  if size = 0 then dst
  else text.take (size - 1) ++ 0 :: dst.drop ((text.take (size - 1)).length + 1)

/-- The output of the format `"Modified by %s #%lu"` (line 91). -/
def modified_text (task_name : List Nat) (counter : Nat) : List Nat :=
  ascii "Modified by " ++ c_str task_name ++ ascii " #" ++ ascii (toString counter)

/-- The locals of `access_shared_resource` (lines 53-55). -/
structure Locals where
  temp_buffer : List Nat
  temp_counter : Nat
  expected_checksum : Nat
deriving DecidableEq

/-- Lines 64-68 of `access_shared_resource`: count the access and switch the LEDs on. -/
def enter (led_pin : Nat) (g : Globals) : Globals :=
  { g with
    stats := { g.stats with successful_access := (g.stats.successful_access + 1) % UINT32_MOD }
    gpio := gpio_set_level LED_CRITICAL 1 (gpio_set_level led_pin 1 g.gpio) }

/-- The read phase of `access_shared_resource` (lines 71-81): the snapshot into the locals
and the check before modifying. -/
def read_phase (l : Locals) (g : Globals) : Locals × Globals :=
  let temp_counter := g.shared_data.counter
  let temp_buffer := strcpy l.temp_buffer g.shared_data.shared_buffer
  let expected_checksum := g.shared_data.checksum
  let calc_before := calculate_checksum temp_buffer temp_counter
  ({ temp_buffer := temp_buffer, temp_counter := temp_counter,
     expected_checksum := expected_checksum },
    if calc_before ≠ expected_checksum ∧ 0 < g.shared_data.access_count then
      { g with stats := { g.stats with
          corruption_detected := (g.stats.corruption_detected + 1) % UINT32_MOD } }
    else g)

/-- The write phase of `access_shared_resource` (lines 89-93). -/
def write_phase (task_name : List Nat) (l : Locals) (g : Globals) : Globals :=
  let counter := (l.temp_counter + 1) % UINT32_MOD
  let shared_buffer := snprintf g.shared_data.shared_buffer 100 (modified_text task_name counter)
  { g with
    shared_data :=
      { counter := counter
        shared_buffer := shared_buffer
        checksum := calculate_checksum shared_buffer counter
        access_count := (g.shared_data.access_count + 1) % UINT32_MOD } }

/-- Lines 103-104 of `access_shared_resource`: switch the LEDs off. -/
def leave (led_pin : Nat) (g : Globals) : Globals :=
  { g with gpio := gpio_set_level LED_CRITICAL 0 (gpio_set_level led_pin 0 g.gpio) }

/-- The check of `monitor_task` (lines 160-164). -/
def monitor_check (g : Globals) : Globals :=
  if calculate_checksum g.shared_data.shared_buffer g.shared_data.counter
        ≠ g.shared_data.checksum ∧ 0 < g.shared_data.access_count then
    { g with stats := { g.stats with
        corruption_detected := (g.stats.corruption_detected + 1) % UINT32_MOD } }
  else g

/-- The file-scope initial values (lines 30 and 40). -/
def globals_static : Globals :=
  { shared_data := { counter := 0, shared_buffer := List.replicate 100 0, checksum := 0,
                     access_count := 0 }
    stats := { successful_access := 0, failed_access := 0, corruption_detected := 0,
               priority_inversions := 0 }
    gpio := fun _ => 0 }

/-- The initialisation of `app_main` (lines 186-198). -/
def app_main_init (g : Globals) : Globals :=
  let shared_buffer := strcpy g.shared_data.shared_buffer (ascii "Initial state")
  { g with
    gpio := gpio_set_level LED_CRITICAL 0 (gpio_set_level LED_TASK3 0
      (gpio_set_level LED_TASK2 0 (gpio_set_level LED_TASK1 0 g.gpio)))
    shared_data :=
      { counter := 0
        shared_buffer := shared_buffer
        checksum := calculate_checksum shared_buffer 0
        access_count := 0 } }

/-- Where an accessing task stands in `access_shared_resource`. -/
inductive Pc where
  /-- Outside the function. -/
  | idle
  /-- Before the read phase (line 71). -/
  | entered
  /-- Between the read phase and the write phase (the delay of line 86). -/
  | read_done
  /-- After the write phase (the delay of line 99). -/
  | written
deriving DecidableEq

/-- The name an accessing task passes (lines 113, 121, 129). -/
def task_name (t : Fin 3) : List Nat :=
  if t.val = 0 then ascii "HIGH_PRI" else if t.val = 1 then ascii "MED_PRI"
  else ascii "LOW_PRI"

/-- The LED an accessing task passes (lines 113, 121, 129). -/
def task_led (t : Fin 3) : Nat :=
  if t.val = 0 then LED_TASK1 else if t.val = 1 then LED_TASK2 else LED_TASK3

/-- The globals, and the position and the locals of the three accessing tasks. -/
structure System where
  g : Globals
  pc : Fin 3 → Pc
  locals : Fin 3 → Locals

/-- Who makes the next step: an accessing task or the monitor. -/
inductive Actor where
  | task (t : Fin 3)
  | monitor
deriving DecidableEq

/-- One step at the granularity of whole phases: an accessing task makes its next phase,
or the monitor makes its check. -/
def system_step (s : System) : Actor → System
  | .monitor => { s with g := monitor_check s.g }
  | .task t =>
    match s.pc t with
    | .idle => { s with g := enter (task_led t) s.g, pc := Function.update s.pc t .entered }
    | .entered =>
      { g := (read_phase (s.locals t) s.g).2
        pc := Function.update s.pc t .read_done
        locals := Function.update s.locals t (read_phase (s.locals t) s.g).1 }
    | .read_done =>
      { s with g := write_phase (task_name t) (s.locals t) s.g
               pc := Function.update s.pc t .written }
    | .written => { s with g := leave (task_led t) s.g, pc := Function.update s.pc t .idle }

/-- The system after a schedule. -/
def run (s : System) (schedule : List Actor) : System := schedule.foldl system_step s

/-- The system when `app_main` has initialised the shared data and created the tasks; the
locals hold whatever was on the stacks. -/
def system_init (locals : Fin 3 → Locals) : System :=
  { g := app_main_init globals_static, pc := fun _ => .idle, locals := locals }

/-- The checksum field agrees with the checksum of the buffer and the counter. -/
def Coherent (g : Globals) : Prop :=
  g.shared_data.checksum
    = calculate_checksum g.shared_data.shared_buffer g.shared_data.counter

/-- Locals used in the examples. -/
def locals_zero : Locals :=
  { temp_buffer := List.replicate 100 0, temp_counter := 0, expected_checksum := 0 }

/-- The globals after initialisation with the counter at its largest value and the
checksum recomputed. -/
def globals_last_count : Globals :=
  { app_main_init globals_static with
    shared_data :=
      { counter := 4294967295
        shared_buffer := (app_main_init globals_static).shared_data.shared_buffer
        checksum := calculate_checksum
          (app_main_init globals_static).shared_data.shared_buffer 4294967295
        access_count := 7 } }

/-- Two accesses whose read phases both come before either write phase: the first task
reads, the second reads, the first writes, the second writes. -/
def interleaved_access (name1 name2 : List Nat) (l1 l2 : Locals) (g : Globals) : Globals :=
  write_phase name2 (read_phase l2 (read_phase l1 g).2).1
    (write_phase name1 (read_phase l1 g).1 (read_phase l2 (read_phase l1 g).2).2)

/-- Two accesses one after the other: the first task reads and writes, then the second
reads and writes. -/
def sequential_access (name1 name2 : List Nat) (l1 l2 : Locals) (g : Globals) : Globals :=
  write_phase name2
    (read_phase l2 (write_phase name1 (read_phase l1 g).1 (read_phase l1 g).2)).1
    (read_phase l2 (write_phase name1 (read_phase l1 g).1 (read_phase l1 g).2)).2

end Mutex

namespace Producers

/-! ## The scan of `acquire_resource` -/

theorem acquire_scan_cases (user_name : List Char) (g : Globals) :
    ∀ (fuel i : Nat), i + fuel = MAX_RESOURCES →
      (∀ j : Fin MAX_RESOURCES, j.val < i → (g.resources j).in_use = true) →
      (∃ k : Fin MAX_RESOURCES, (g.resources k).in_use = false ∧
          (∀ j : Fin MAX_RESOURCES, j < k → (g.resources j).in_use = true) ∧
          acquire_scan user_name g fuel i = (claim_slot user_name k g, (k.val : Int))) ∨
      ((∀ j : Fin MAX_RESOURCES, (g.resources j).in_use = true) ∧
          acquire_scan user_name g fuel i = (g, -1)) := by
  intro fuel
  induction fuel with
  | zero =>
    intro i hi hbelow
    right
    refine ⟨fun j => hbelow j (by have := j.isLt; omega), rfl⟩
  | succ n ih =>
    intro i hi hbelow
    have hlt : i < MAX_RESOURCES := by omega
    by_cases hfree : (g.resources ⟨i, hlt⟩).in_use = false
    · left
      refine ⟨⟨i, hlt⟩, hfree, fun j hj => hbelow j hj, ?_⟩
      simp [acquire_scan, hlt, hfree]
    · have hused : (g.resources ⟨i, hlt⟩).in_use = true := by
        cases hb : (g.resources ⟨i, hlt⟩).in_use
        · exact absurd hb hfree
        · rfl
      have hstep : acquire_scan user_name g (n + 1) i = acquire_scan user_name g n (i + 1) := by
        simp [acquire_scan, hlt, hused]
      rw [hstep]
      apply ih (i + 1) (by omega)
      intro j hj
      by_cases hji : j.val = i
      · have : j = ⟨i, hlt⟩ := Fin.ext hji
        rw [this]; exact hused
      · exact hbelow j (by omega)

theorem acquire_resource_cases (user_name : List Char) (g : Globals) :
    (∃ k : Fin MAX_RESOURCES, (g.resources k).in_use = false ∧
        (∀ j : Fin MAX_RESOURCES, j < k → (g.resources j).in_use = true) ∧
        acquire_resource user_name g = (claim_slot user_name k g, (k.val : Int))) ∨
    ((∀ j : Fin MAX_RESOURCES, (g.resources j).in_use = true) ∧
        acquire_resource user_name g = (g, -1)) :=
  acquire_scan_cases user_name g MAX_RESOURCES 0 (by simp) (fun j hj => absurd hj (by omega))

/-! ## Strings -/

theorem c_str_strncpy_set (dst src : List Char) (n : Nat) :
    c_str ((strncpy dst src n).set n NUL) = (c_str src).take n := by
  have hb : ∀ c ∈ (c_str src).take n, decide (c ≠ NUL) = true := by
    intro c hc
    have hc2 : c ∈ (c_str src) := List.mem_of_mem_take hc
    unfold c_str at hc2
    have hp := List.mem_takeWhile_imp hc2
    exact hp
  have hlen : ((c_str src).take n).length ≤ n := List.length_take_le _ _
  have htail : ∀ m (rest : List Char),
      List.takeWhile (fun c => decide (c ≠ NUL)) ((List.replicate m NUL ++ rest).set m NUL)
        = [] := by
    intro m rest
    cases m with
    | zero =>
      cases rest with
      | nil => simp
      | cons x xs => simp
    | succ m => simp [List.replicate_succ]
  unfold strncpy
  simp only [List.append_assoc]
  rw [List.set_append_right _ _ hlen]
  show List.takeWhile (fun c => decide (c ≠ NUL)) _ = _
  rw [List.takeWhile_append_of_pos hb, htail, List.append_nil]

theorem c_str_set_zero (buf : List Char) : c_str (buf.set 0 NUL) = [] := by
  cases buf with
  | nil => simp [c_str]
  | cons x xs => simp [c_str]

/-! ## Slot fields after a claim and after a release -/

theorem claim_slot_resources (user_name : List Char) (k j : Fin MAX_RESOURCES) (g : Globals) :
    (claim_slot user_name k g).resources j =
      if j = k then
        { g.resources k with
          in_use := true
          current_user := (strncpy (g.resources k).current_user user_name 19).set 19 NUL
          usage_count := ((g.resources k).usage_count + 1) % UINT32_MOD }
      else g.resources j := by
  simp [claim_slot, Function.update_apply]

theorem release_resource_in_range (i : Fin MAX_RESOURCES) (d : Nat) (g : Globals) :
    release_resource (i.val : Int) d g =
      { g with
        resources := Function.update g.resources i
          { g.resources i with
            in_use := false
            total_usage_time := ((g.resources i).total_usage_time + d) % UINT32_MOD
            current_user := (g.resources i).current_user.set 0 NUL }
        gpio := set_resource_led (i.val : Int) 0 g.gpio
        stats := { g.stats with
          resources_in_use :=
            if 0 < g.stats.resources_in_use then g.stats.resources_in_use - 1
            else g.stats.resources_in_use } } := by
  have hi := i.isLt
  have h : 0 ≤ (i.val : Int) ∧ (i.val : Int) < (MAX_RESOURCES : Int) := by
    constructor <;> omega
  simp only [release_resource, h, and_self, dite_true, Int.toNat_ofNat, Fin.eta]

theorem release_resource_cases (resource_index : Int) (d : Nat) (g : Globals) :
    (∃ i : Fin MAX_RESOURCES, resource_index = (i.val : Int)) ∨
      release_resource resource_index d g = g := by
  by_cases h : 0 ≤ resource_index ∧ resource_index < (MAX_RESOURCES : Int)
  · left
    refine ⟨⟨resource_index.toNat, by omega⟩, ?_⟩
    simp only
    omega
  · right
    simp only [release_resource, h, dite_false]

/-- One claim/release cycle on a pool whose slot 0 is free works on slot 0. -/
theorem cycle_on_slot_zero (user_name : List Char) (d : Nat) (g : Globals)
    (h0 : (g.resources 0).in_use = false) :
    ((release_resource (acquire_resource user_name g).2 d
        (acquire_resource user_name g).1).resources 0).in_use = false ∧
    ((release_resource (acquire_resource user_name g).2 d
        (acquire_resource user_name g).1).resources 0).usage_count
      = ((g.resources 0).usage_count + 1) % UINT32_MOD ∧
    ((release_resource (acquire_resource user_name g).2 d
        (acquire_resource user_name g).1).resources 0).total_usage_time
      = ((g.resources 0).total_usage_time + d) % UINT32_MOD := by
  rcases acquire_resource_cases user_name g with ⟨k, _, hbelow, heq⟩ | ⟨hall, _⟩
  · have hk0 : k = 0 := by
      by_contra hne
      have hpos : (0 : Fin MAX_RESOURCES) < k := by
        have : k.val ≠ 0 := fun hv => hne (Fin.ext hv)
        show (0 : Nat) < k.val
        omega
      have := hbelow 0 hpos
      rw [h0] at this
      exact Bool.noConfusion this
    subst hk0
    rw [heq]
    simp only [release_resource_in_range, claim_slot_resources, Function.update_same, if_true]
    exact ⟨trivial, trivial, trivial⟩
  · rw [hall 0] at h0
    exact Bool.noConfusion h0

/-! ## The gate -/

theorem producer_take_admitted (g : Globals) (h : (producer_take g).2 = true) :
    (producer_take g).1.xCountingSemaphore + 1 = g.xCountingSemaphore ∧
      (producer_take g).1.resources = g.resources := by
  unfold producer_take xSemaphoreTake at *
  by_cases hc : 0 < g.xCountingSemaphore
  · simp only [hc, if_true]
    exact ⟨by omega, trivial⟩
  · simp [hc] at h

theorem producer_take_timeout (g : Globals) (h : (producer_take g).2 = false) :
    (producer_take g).1.xCountingSemaphore = g.xCountingSemaphore ∧
      (producer_take g).1.resources = g.resources ∧
      (producer_take g).1.stats.resources_in_use = g.stats.resources_in_use := by
  unfold producer_take xSemaphoreTake at *
  by_cases hc : 0 < g.xCountingSemaphore
  · simp [hc] at h
  · simp only [hc, if_false]
    exact ⟨rfl, rfl, rfl⟩

theorem loadgen_take_admitted (g : Globals) (h : (loadgen_take g).2 = true) :
    (loadgen_take g).1.xCountingSemaphore + 1 = g.xCountingSemaphore ∧
      (loadgen_take g).1.resources = g.resources := by
  unfold loadgen_take xSemaphoreTake at *
  by_cases hc : 0 < g.xCountingSemaphore
  · simp only [hc, if_true]
    exact ⟨by omega, trivial⟩
  · simp [hc] at h

theorem loadgen_take_timeout (g : Globals) (h : (loadgen_take g).2 = false) :
    (loadgen_take g).1 = g := by
  unfold loadgen_take xSemaphoreTake at *
  by_cases hc : 0 < g.xCountingSemaphore
  · simp [hc] at h
  · simp [hc]

/-! ## Counting slots and tasks -/

theorem sum_update_weight {n : Nat} {α : Type} (f : Fin n → α) (w : α → Nat) (i : Fin n)
    (v : α) :
    (∑ j : Fin n, w (Function.update f i v j)) + w (f i) = (∑ j : Fin n, w (f j)) + w v := by
  rw [← Finset.add_sum_erase Finset.univ (fun j => w (Function.update f i v j))
    (Finset.mem_univ i)]
  rw [← Finset.add_sum_erase Finset.univ (fun j => w (f j)) (Finset.mem_univ i)]
  have hrest : ∑ x ∈ Finset.univ.erase i, w (Function.update f i v x)
      = ∑ x ∈ Finset.univ.erase i, w (f x) :=
    Finset.sum_congr rfl
      (fun x hx => by rw [Function.update_noteq (Finset.ne_of_mem_erase hx)])
  simp only [Function.update_same, hrest]
  omega

theorem occupied_update (g g1 : Globals) (i : Fin MAX_RESOURCES) (r1 : resource_t)
    (h : g1.resources = Function.update g.resources i r1) :
    occupied g1 + (if (g.resources i).in_use = true then 1 else 0)
      = occupied g + (if r1.in_use = true then 1 else 0) := by
  unfold occupied
  rw [h]
  exact sum_update_weight g.resources (fun r => if r.in_use = true then 1 else 0) i r1

theorem ticket_holders_update (s : System) (g1 : Globals) (t : Fin NUM_TASKS) (p : Pc) :
    ticket_holders { g := g1, pc := Function.update s.pc t p }
        + (if (s.pc t).holds_ticket = true then 1 else 0)
      = ticket_holders s + (if p.holds_ticket = true then 1 else 0) := by
  unfold ticket_holders
  exact sum_update_weight s.pc (fun q => if q.holds_ticket = true then 1 else 0) t p

theorem slot_holders_update (s : System) (g1 : Globals) (t : Fin NUM_TASKS) (p : Pc) :
    slot_holders { g := g1, pc := Function.update s.pc t p }
        + (if (s.pc t).holds_slot = true then 1 else 0)
      = slot_holders s + (if p.holds_slot = true then 1 else 0) := by
  unfold slot_holders
  exact sum_update_weight s.pc (fun q => if q.holds_slot = true then 1 else 0) t p

theorem occupied_eq_max_of_all (g : Globals)
    (h : ∀ i : Fin MAX_RESOURCES, (g.resources i).in_use = true) :
    occupied g = MAX_RESOURCES := by
  unfold occupied
  simp [h]

theorem slot_holders_le_ticket_holders (s : System) : slot_holders s ≤ ticket_holders s := by
  unfold slot_holders ticket_holders
  apply Finset.sum_le_sum
  intro t _
  cases s.pc t <;> simp [Pc.holds_slot, Pc.holds_ticket]

/-- A task that has a ticket but no slot leaves room for one more slot holder. -/
theorem slot_holders_lt_ticket_holders (s : System) (t : Fin NUM_TASKS)
    (h : s.pc t = .admitted) : slot_holders s < ticket_holders s := by
  unfold slot_holders ticket_holders
  apply Finset.sum_lt_sum
  · intro u _
    cases s.pc u <;> simp [Pc.holds_slot, Pc.holds_ticket]
  · exact ⟨t, Finset.mem_univ t, by simp [h, Pc.holds_slot, Pc.holds_ticket]⟩

/-! ## The gate and the pool stay consistent along every schedule -/

theorem consistent_init : Consistent system_init where
  tickets := by decide
  held_in_use := by
    intro t res_idx use_ms h
    simp [system_init] at h
  held_distinct := by
    intro t t' res_idx use_ms res_idx' use_ms' _ h
    simp [system_init] at h
  occupied_eq := by decide

/-- A step that leaves the slots alone and neither starts nor ends at `holding`. -/
theorem consistent_frame (s : System) (t : Fin NUM_TASKS) (p : Pc) (g1 : Globals)
    (h : Consistent s) (hres : g1.resources = s.g.resources)
    (hold : (s.pc t).holds_slot = false) (hnew : p.holds_slot = false)
    (htick : g1.xCountingSemaphore + (if p.holds_ticket = true then 1 else 0)
      = s.g.xCountingSemaphore + (if (s.pc t).holds_ticket = true then 1 else 0)) :
    Consistent { g := g1, pc := Function.update s.pc t p } where
  tickets := by
    have h1 := ticket_holders_update s g1 t p
    have h2 := h.tickets
    simp only at h1 h2 ⊢
    omega
  held_in_use := by
    intro u res_idx use_ms hu
    simp only [Function.update_apply] at hu
    split at hu
    · rw [hu] at hnew
      simp [Pc.holds_slot] at hnew
    · simp only [hres]
      exact h.held_in_use u res_idx use_ms hu
  held_distinct := by
    intro u u1 res_idx use_ms res_idx1 use_ms1 hne hu hu1
    simp only [Function.update_apply] at hu hu1
    split at hu
    · rw [hu] at hnew
      simp [Pc.holds_slot] at hnew
    · split at hu1
      · rw [hu1] at hnew
        simp [Pc.holds_slot] at hnew
      · exact h.held_distinct u u1 res_idx use_ms res_idx1 use_ms1 hne hu hu1
  occupied_eq := by
    have h1 := slot_holders_update s g1 t p
    have h2 := h.occupied_eq
    have h3 : occupied g1 = occupied s.g := by unfold occupied; rw [hres]
    simp only [hold, hnew, Bool.false_eq_true, if_false] at h1
    simp only at h1 h2 ⊢
    omega

/-- A successful claim of the free slot `k` by an admitted task. -/
theorem consistent_claim (s : System) (t : Fin NUM_TASKS) (user_name : List Char)
    (k : Fin MAX_RESOURCES) (use_ms : Nat) (h : Consistent s) (hpc : s.pc t = .admitted)
    (hk : (s.g.resources k).in_use = false) :
    Consistent { g := claim_slot user_name k s.g,
                 pc := Function.update s.pc t (.holding (k.val : Int) use_ms) } where
  tickets := by
    have h1 := ticket_holders_update s (claim_slot user_name k s.g) t
      (.holding (k.val : Int) use_ms)
    have h2 := h.tickets
    have h3 : (claim_slot user_name k s.g).xCountingSemaphore = s.g.xCountingSemaphore := rfl
    simp only [hpc, Pc.holds_ticket, if_true] at h1
    simp only [h3] at h1 h2 ⊢
    omega
  held_in_use := by
    intro u res_idx ms hu
    simp only [Function.update_apply] at hu
    split at hu
    · injection hu with h1 _
      exact ⟨k, h1.symm, by simp [claim_slot_resources]⟩
    · obtain ⟨i, hi, hin⟩ := h.held_in_use u res_idx ms hu
      refine ⟨i, hi, ?_⟩
      simp only [claim_slot_resources]
      split
      · rfl
      · exact hin
  held_distinct := by
    intro u u1 res_idx ms res_idx1 ms1 hne hu hu1
    simp only [Function.update_apply] at hu hu1
    split at hu
    · rename_i hut
      split at hu1
      · rename_i hu1t
        exact absurd (hut.trans hu1t.symm) hne
      · injection hu with h1 _
        obtain ⟨i, hi, hin⟩ := h.held_in_use u1 res_idx1 ms1 hu1
        intro heq
        have hik : i = k := Fin.ext (by omega)
        rw [hik, hk] at hin
        exact Bool.noConfusion hin
    · split at hu1
      · injection hu1 with h1 _
        obtain ⟨i, hi, hin⟩ := h.held_in_use u res_idx ms hu
        intro heq
        have hik : i = k := Fin.ext (by omega)
        rw [hik, hk] at hin
        exact Bool.noConfusion hin
      · exact h.held_distinct u u1 res_idx ms res_idx1 ms1 hne hu hu1
  occupied_eq := by
    have h1 := slot_holders_update s (claim_slot user_name k s.g) t
      (.holding (k.val : Int) use_ms)
    have h2 := h.occupied_eq
    have h3 := occupied_update s.g (claim_slot user_name k s.g) k _ rfl
    simp only [hpc, Pc.holds_slot, if_true, Bool.false_eq_true, if_false] at h1
    simp only [hk, if_true, Bool.false_eq_true, if_false] at h3
    simp only at h1 h2 h3 ⊢
    omega

/-- The release of slot `i` by the task that holds it. -/
theorem consistent_release (s : System) (t : Fin NUM_TASKS) (i : Fin MAX_RESOURCES)
    (use_ms : Nat) (h : Consistent s) (hpc : s.pc t = .holding (i.val : Int) use_ms) :
    Consistent { g := release_resource (i.val : Int) use_ms s.g,
                 pc := Function.update s.pc t .giving } where
  tickets := by
    have h1 := ticket_holders_update s (release_resource (i.val : Int) use_ms s.g) t
      .giving
    have h2 := h.tickets
    have h3 : (release_resource (i.val : Int) use_ms s.g).xCountingSemaphore
        = s.g.xCountingSemaphore := by rw [release_resource_in_range]
    simp only [hpc, Pc.holds_ticket, if_true] at h1
    simp only [h3] at h1 h2 ⊢
    omega
  held_in_use := by
    intro u res_idx ms hu
    simp only [Function.update_apply] at hu
    split at hu
    · exact Pc.noConfusion hu
    · rename_i hut
      obtain ⟨j, hj, hin⟩ := h.held_in_use u res_idx ms hu
      have hne := h.held_distinct u t res_idx ms (i.val : Int) use_ms hut hu hpc
      refine ⟨j, hj, ?_⟩
      have hji : j ≠ i := by
        intro hji
        rw [hji] at hj
        exact hne hj
      rw [release_resource_in_range]
      simp only [Function.update_noteq hji]
      exact hin
  held_distinct := by
    intro u u1 res_idx ms res_idx1 ms1 hne hu hu1
    simp only [Function.update_apply] at hu hu1
    split at hu
    · exact Pc.noConfusion hu
    · split at hu1
      · exact Pc.noConfusion hu1
      · exact h.held_distinct u u1 res_idx ms res_idx1 ms1 hne hu hu1
  occupied_eq := by
    have h1 := slot_holders_update s (release_resource (i.val : Int) use_ms s.g) t
      .giving
    have h2 := h.occupied_eq
    have h3 := occupied_update s.g (release_resource (i.val : Int) use_ms s.g) i _
      (by rw [release_resource_in_range])
    obtain ⟨j, hj, hin⟩ := h.held_in_use t (i.val : Int) use_ms hpc
    have hji : j = i := Fin.ext (by omega)
    rw [hji] at hin
    simp only [hpc, Pc.holds_slot, if_true, Bool.false_eq_true, if_false] at h1
    simp only [hin, if_true, Bool.false_eq_true, if_false] at h3
    simp only at h1 h2 h3 ⊢
    omega

theorem consistent_step (s : System) (ev : Fin NUM_TASKS × Nat) (h : Consistent s) :
    Consistent (system_step s ev) := by
  obtain ⟨t, r⟩ := ev
  unfold system_step
  simp only
  cases hpc : s.pc t with
  | top =>
    have hk : (task_step (task_kind t) r .top s.g).1 = .waiting ∧
        (task_step (task_kind t) r .top s.g).2.resources = s.g.resources ∧
        (task_step (task_kind t) r .top s.g).2.xCountingSemaphore
          = s.g.xCountingSemaphore := by
      cases task_kind t <;> exact ⟨rfl, rfl, rfl⟩
    rw [hk.1]
    refine consistent_frame s t .waiting _ h hk.2.1 (by rw [hpc]; rfl) rfl ?_
    rw [hk.2.2, hpc]
    rfl
  | waiting =>
    cases hkind : task_kind t with
    | producer producer_id =>
      by_cases hadm : (producer_take s.g).2 = true
      · have hstep : task_step (.producer producer_id) r .waiting s.g
            = (.admitted, (producer_take s.g).1) := by
          simp [task_step, hadm]
        rw [hstep]
        have hg := producer_take_admitted s.g hadm
        refine consistent_frame s t .admitted _ h hg.2 (by rw [hpc]; rfl) rfl ?_
        simp only [hpc, Pc.holds_ticket, if_true, Bool.false_eq_true, if_false]
        omega
      · have hadm2 : (producer_take s.g).2 = false := by
          cases hb : (producer_take s.g).2
          · rfl
          · exact absurd hb hadm
        have hstep : task_step (.producer producer_id) r .waiting s.g
            = (.top, (producer_take s.g).1) := by
          simp [task_step, hadm2]
        rw [hstep]
        have hg := producer_take_timeout s.g hadm2
        refine consistent_frame s t .top _ h hg.2.1 (by rw [hpc]; rfl) rfl ?_
        simp only [hpc, Pc.holds_ticket, Bool.false_eq_true, if_false]
        omega
    | load_generator =>
      by_cases hadm : (loadgen_take s.g).2 = true
      · have hstep : task_step .load_generator r .waiting s.g
            = (.admitted, (loadgen_take s.g).1) := by
          simp [task_step, hadm]
        rw [hstep]
        have hg := loadgen_take_admitted s.g hadm
        refine consistent_frame s t .admitted _ h hg.2 (by rw [hpc]; rfl) rfl ?_
        simp only [hpc, Pc.holds_ticket, if_true, Bool.false_eq_true, if_false]
        omega
      · have hadm2 : (loadgen_take s.g).2 = false := by
          cases hb : (loadgen_take s.g).2
          · rfl
          · exact absurd hb hadm
        have hstep : task_step .load_generator r .waiting s.g
            = (.top, (loadgen_take s.g).1) := by
          simp [task_step, hadm2]
        rw [hstep, loadgen_take_timeout s.g hadm2]
        refine consistent_frame s t .top _ h rfl (by rw [hpc]; rfl) rfl ?_
        simp only [hpc, Pc.holds_ticket, Bool.false_eq_true, if_false]
  | admitted =>
    rcases acquire_resource_cases (task_kind t).name s.g with ⟨k, hk, _, heq⟩ | ⟨_, heq⟩
    · have hstep : task_step (task_kind t) r .admitted s.g
          = (.holding (k.val : Int) ((task_kind t).use_ms r),
              claim_slot (task_kind t).name k s.g) := by
        simp [task_step, heq]
      rw [hstep]
      exact consistent_claim s t _ k _ h hpc hk
    · have hstep : task_step (task_kind t) r .admitted s.g = (.giving, s.g) := by
        simp [task_step, heq]
      rw [hstep]
      refine consistent_frame s t .giving _ h rfl (by rw [hpc]; rfl) rfl ?_
      simp only [hpc, Pc.holds_ticket]
  | holding res_idx use_ms =>
    obtain ⟨i, hi, _⟩ := h.held_in_use t res_idx use_ms hpc
    have hstep : task_step (task_kind t) r (.holding res_idx use_ms) s.g
        = (.giving, release_resource (i.val : Int) use_ms s.g) := by
      simp [task_step, hi]
    rw [hstep]
    exact consistent_release s t i use_ms h (by rw [hpc, hi])
  | giving =>
    have hstep : task_step (task_kind t) r .giving s.g = (.top, give_ticket s.g) := by
      simp [task_step]
    rw [hstep]
    refine consistent_frame s t .top _ h rfl (by rw [hpc]; rfl) rfl ?_
    simp only [hpc, Pc.holds_ticket, give_ticket, xSemaphoreGive, if_true, Bool.false_eq_true,
      if_false]

theorem consistent_run (evs : List (Fin NUM_TASKS × Nat)) :
    ∀ s : System, Consistent s → Consistent (run s evs) := by
  induction evs with
  | nil => intro s h; exact h
  | cons ev evs ih =>
    intro s h
    exact ih (system_step s ev) (consistent_step s ev h)

/-! ## Completed work gives every ticket back -/

/-- The steps of a producer, run with no other task in between, add up to one iteration. -/
theorem producer_steps_eq_iteration (producer_id r : Nat) (g : Globals) :
    ∃ n : Nat, n ≤ 5 ∧
      (fun x : Pc × Globals => task_step (.producer producer_id) r x.1 x.2)^[n] (.top, g)
        = (.top, producer_iteration (producer_name producer_id) r g) := by
  by_cases hadm : (producer_take (producer_request g)).2 = true
  · by_cases hidx : 0 ≤ (acquire_resource (producer_name producer_id)
        (producer_take (producer_request g)).1).2
    · exact ⟨5, le_refl _, by
        simp [Function.iterate_succ, task_step, producer_iteration, hadm, hidx, TaskKind.name,
          TaskKind.use_ms]⟩
    · exact ⟨4, by omega, by
        simp [Function.iterate_succ, task_step, producer_iteration, hadm, hidx, TaskKind.name,
          TaskKind.use_ms]⟩
  · exact ⟨2, by omega, by
      simp [Function.iterate_succ, task_step, producer_iteration, hadm]⟩

/-- C1. Deterministic slot selection: on every pool with a free slot, for every holder
name, `acquire_resource` returns the smallest index whose slot has `in_use = false`; in
particular it returns 1 on a pool whose slots are occupied, free, free, ... -/
theorem acquire_resource_lowest_free (user_name : List Char) (g : Globals)
    (h : ∃ i : Fin MAX_RESOURCES, (g.resources i).in_use = false) :
    (∃ k : Fin MAX_RESOURCES, (acquire_resource user_name g).2 = (k.val : Int) ∧
        (g.resources k).in_use = false ∧
        ∀ j : Fin MAX_RESOURCES, (g.resources j).in_use = false → k ≤ j) ∧
    ((g.resources 0).in_use = true → (g.resources 1).in_use = false →
        (acquire_resource user_name g).2 = 1) := by
  rcases acquire_resource_cases user_name g with ⟨k, hk, hbelow, heq⟩ | ⟨hall, _⟩
  · have hmin : ∀ j : Fin MAX_RESOURCES, (g.resources j).in_use = false → k ≤ j := by
      intro j hj
      by_contra hlt
      have := hbelow j (lt_of_not_le hlt)
      rw [hj] at this
      exact Bool.noConfusion this
    refine ⟨⟨k, by rw [heq], hk, hmin⟩, ?_⟩
    intro h0 h1
    have hle : k ≤ 1 := hmin 1 h1
    have hne : k ≠ 0 := by
      intro h00
      rw [h00, h0] at hk
      exact Bool.noConfusion hk
    have hk1 : k = 1 := by
      have h1 : k.val ≤ 1 := hle
      have h2 : k.val ≠ 0 := fun hv => hne (Fin.ext hv)
      exact Fin.ext (by simp; omega)
    rw [heq, hk1]
    rfl
  · obtain ⟨i, hi⟩ := h
    rw [hall i] at hi
    exact Bool.noConfusion hi

/-- Witness for C1: on the pool occupied, free, free, free, free the result is 1. -/
theorem acquire_resource_lowest_free_witness :
    (∃ i : Fin MAX_RESOURCES, (pool_first_taken.resources i).in_use = false) ∧
      (acquire_resource loadgen_name pool_first_taken).2 = 1 :=
  ⟨⟨1, by decide⟩,
    (acquire_resource_lowest_free loadgen_name pool_first_taken ⟨1, by decide⟩).2
      (by decide) (by decide)⟩

/-- C7. Exhaustion result: `acquire_resource` returns -1 if and only if all slots have
`in_use = true`, and every other result is an index in 0..4. -/
theorem acquire_resource_exhaustion (user_name : List Char) (g : Globals) :
    ((acquire_resource user_name g).2 = -1 ↔
        ∀ i : Fin MAX_RESOURCES, (g.resources i).in_use = true) ∧
    ((acquire_resource user_name g).2 = -1 ∨
        (0 ≤ (acquire_resource user_name g).2 ∧
          (acquire_resource user_name g).2 < (MAX_RESOURCES : Int))) := by
  rcases acquire_resource_cases user_name g with ⟨k, hk, _, heq⟩ | ⟨hall, heq⟩
  · have hk5 := k.isLt
    rw [heq]
    refine ⟨⟨fun hneg => ?_, fun hall => ?_⟩, Or.inr ⟨?_, ?_⟩⟩
    · simp only at hneg
      omega
    · rw [hall k] at hk
      exact Bool.noConfusion hk
    · simp
    · simp only
      omega
  · rw [heq]
    exact ⟨⟨fun _ => hall, fun _ => rfl⟩, Or.inl rfl⟩

/-- C8, as stated, fails: on a pool whose free slot 0 has `usage_count = 4294967295`, a
claim under a 20-character name returns 0, stores a string other than the name passed in,
and leaves `usage_count` at 0 instead of one more than before. -/
theorem acquire_resource_postcondition_counterexample :
    (pool_worn.resources 0).in_use = false ∧
    (acquire_resource long_name pool_worn).2 = 0 ∧
    c_str ((acquire_resource long_name pool_worn).1.resources 0).current_user ≠ long_name ∧
    ((acquire_resource long_name pool_worn).1.resources 0).usage_count ≠
      (pool_worn.resources 0).usage_count + 1 := by
  decide

/-- C8, amended. Claim postcondition: if `acquire_resource` returns index `i`, then
afterwards slot `i` has `in_use = true`, its `current_user` holds the first 19 characters
of the holder's name (the whole name when it has at most 19), and its `usage_count` is one
more than before modulo `2 ^ 32` (exactly one more unless it was `2 ^ 32 - 1`). -/
theorem acquire_resource_postcondition (user_name : List Char) (g : Globals)
    (i : Fin MAX_RESOURCES) (h : (acquire_resource user_name g).2 = (i.val : Int)) :
    (g.resources i).in_use = false ∧
    ((acquire_resource user_name g).1.resources i).in_use = true ∧
    c_str ((acquire_resource user_name g).1.resources i).current_user
      = (c_str user_name).take 19 ∧
    ((c_str user_name).length ≤ 19 →
      c_str ((acquire_resource user_name g).1.resources i).current_user = c_str user_name) ∧
    ((acquire_resource user_name g).1.resources i).usage_count
      = ((g.resources i).usage_count + 1) % UINT32_MOD ∧
    ((g.resources i).usage_count + 1 < UINT32_MOD →
      ((acquire_resource user_name g).1.resources i).usage_count
        = (g.resources i).usage_count + 1) := by
  rcases acquire_resource_cases user_name g with ⟨k, hk, _, heq⟩ | ⟨_, heq⟩
  · rw [heq] at h
    have hki : k = i := Fin.ext (by simpa using h)
    subst hki
    rw [heq]
    simp only [claim_slot_resources, if_true, c_str_strncpy_set]
    refine ⟨hk, trivial, trivial, ?_, trivial, ?_⟩
    · intro hlen
      exact List.take_of_length_le hlen
    · intro hlt
      exact Nat.mod_eq_of_lt hlt
  · rw [heq] at h
    simp only at h
    omega

/-- Witness for C8: the first claim on the fresh pool, by the load generator. -/
theorem acquire_resource_postcondition_witness :
    (acquire_resource loadgen_name globals_init).2 = ((0 : Fin MAX_RESOURCES).val : Int) ∧
    ((acquire_resource loadgen_name globals_init).1.resources 0).in_use = true ∧
    c_str ((acquire_resource loadgen_name globals_init).1.resources 0).current_user
      = loadgen_name ∧
    ((acquire_resource loadgen_name globals_init).1.resources 0).usage_count = 1 :=
  have h := acquire_resource_postcondition loadgen_name globals_init 0 (by decide)
  ⟨by decide, h.2.1, (h.2.2.2.1 (by decide)).trans (by decide), h.2.2.2.2.2 (by decide)⟩

/-- C9, as stated, fails: releasing slot 0 with duration 1 when its `total_usage_time` is
4294967295 leaves 0, not the previous value plus 1. -/
theorem release_resource_postcondition_counterexample :
    ((release_resource 0 1 pool_worn).resources 0).total_usage_time ≠
      (pool_worn.resources 0).total_usage_time + 1 := by
  decide

/-- C9, amended. Release postcondition: for every index `i` in 0..4 and duration `d`,
after `release_resource(i, d)` slot `i` has `in_use = false`, an empty `current_user`,
and `total_usage_time` equal to its previous value plus `d` modulo `2 ^ 32`. -/
theorem release_resource_postcondition (g : Globals) (i : Fin MAX_RESOURCES) (d : Nat) :
    ((release_resource (i.val : Int) d g).resources i).in_use = false ∧
    c_str ((release_resource (i.val : Int) d g).resources i).current_user = [] ∧
    ((release_resource (i.val : Int) d g).resources i).total_usage_time
      = ((g.resources i).total_usage_time + d) % UINT32_MOD := by
  rw [release_resource_in_range]
  simp [c_str_set_zero]

/-- C6, as stated, fails: on a pool whose slot 0 has both counters at 4294967295, a claim
leaves `usage_count` smaller than before and a release with duration 1 leaves
`total_usage_time` smaller than before. -/
theorem slot_statistics_monotone_counterexample :
    ((acquire_resource loadgen_name pool_worn).1.resources 0).usage_count
      < (pool_worn.resources 0).usage_count ∧
    ((release_resource 0 1 pool_worn).resources 0).total_usage_time
      < (pool_worn.resources 0).total_usage_time := by
  decide

/-- C6, amended. Monotonic slot statistics: for every pool, holder name, index and
duration, a slot's `usage_count` and `total_usage_time` after `acquire_resource` or
`release_resource` are never less than before the call, except for the one counter the call
increments when that increment wraps: `acquire_resource` leaves every `total_usage_time`
as it was and `release_resource` every `usage_count`; `usage_count` is not less after
`acquire_resource` unless the slot is the one claimed and its count was at `2 ^ 32 - 1`;
`total_usage_time` is not less after `release_resource` unless the slot is the one released
and its total plus `d` reaches `2 ^ 32`. -/
theorem slot_statistics_monotone (user_name : List Char) (g : Globals) (resource_index : Int)
    (d : Nat) (j : Fin MAX_RESOURCES) :
    ((acquire_resource user_name g).1.resources j).total_usage_time
      = (g.resources j).total_usage_time ∧
    ((release_resource resource_index d g).resources j).usage_count
      = (g.resources j).usage_count ∧
    (g.resources j).total_usage_time
      ≤ ((acquire_resource user_name g).1.resources j).total_usage_time ∧
    (g.resources j).usage_count
      ≤ ((release_resource resource_index d g).resources j).usage_count ∧
    (((acquire_resource user_name g).2 = (j.val : Int) →
        (g.resources j).usage_count + 1 < UINT32_MOD) →
      (g.resources j).usage_count
        ≤ ((acquire_resource user_name g).1.resources j).usage_count) ∧
    ((resource_index = (j.val : Int) → (g.resources j).total_usage_time + d < UINT32_MOD) →
      (g.resources j).total_usage_time
        ≤ ((release_resource resource_index d g).resources j).total_usage_time) := by
  have hacq : ((acquire_resource user_name g).1.resources j).total_usage_time
        = (g.resources j).total_usage_time ∧
      (((acquire_resource user_name g).2 = (j.val : Int) →
          (g.resources j).usage_count + 1 < UINT32_MOD) →
        (g.resources j).usage_count
          ≤ ((acquire_resource user_name g).1.resources j).usage_count) := by
    rcases acquire_resource_cases user_name g with ⟨k, _, _, heq⟩ | ⟨_, heq⟩
    · rw [heq]
      simp only [claim_slot_resources]
      by_cases hjk : j = k
      · subst hjk
        simp only [if_true]
        refine ⟨trivial, fun hc => ?_⟩
        rw [Nat.mod_eq_of_lt (hc trivial)]
        exact Nat.le_succ _
      · simp only [hjk, if_false]
        exact ⟨trivial, fun _ => le_refl _⟩
    · rw [heq]
      exact ⟨rfl, fun _ => le_refl _⟩
  have hrel : ((release_resource resource_index d g).resources j).usage_count
        = (g.resources j).usage_count ∧
      ((resource_index = (j.val : Int) →
          (g.resources j).total_usage_time + d < UINT32_MOD) →
        (g.resources j).total_usage_time
          ≤ ((release_resource resource_index d g).resources j).total_usage_time) := by
    rcases release_resource_cases resource_index d g with ⟨i, hi⟩ | hsame
    · rw [hi, release_resource_in_range]
      by_cases hji : j = i
      · subst hji
        simp only [Function.update_same]
        refine ⟨trivial, fun ht => ?_⟩
        rw [Nat.mod_eq_of_lt (ht trivial)]
        exact Nat.le_add_right _ _
      · simp only [Function.update_noteq hji]
        exact ⟨trivial, fun _ => le_refl _⟩
    · rw [hsame]
      exact ⟨rfl, fun _ => le_refl _⟩
  exact ⟨hacq.1, hrel.1, le_of_eq hacq.1.symm, le_of_eq hrel.1.symm, hacq.2, hrel.2⟩

/-- Witness for C6: on the pool whose slot 0 has both counters at 4294967295, a claim
(which takes slot 0) and a release of slot 0 leave the counters of slot 1 not less than
before; on the fresh pool a claim and a release of slot 0 with duration 500 leave the
counters of slot 0 not less than before. -/
theorem slot_statistics_monotone_witness :
    (pool_worn.resources 1).usage_count
      ≤ ((acquire_resource loadgen_name pool_worn).1.resources 1).usage_count ∧
    (pool_worn.resources 1).total_usage_time
      ≤ ((release_resource 0 1 pool_worn).resources 1).total_usage_time ∧
    (globals_init.resources 0).usage_count
      ≤ ((acquire_resource loadgen_name globals_init).1.resources 0).usage_count ∧
    (globals_init.resources 0).total_usage_time
      ≤ ((release_resource 0 500 globals_init).resources 0).total_usage_time :=
  ⟨(slot_statistics_monotone loadgen_name pool_worn 0 1 1).2.2.2.2.1
      (fun h => absurd h (by decide)),
    (slot_statistics_monotone loadgen_name pool_worn 0 1 1).2.2.2.2.2
      (fun h => absurd h (by decide)),
    (slot_statistics_monotone loadgen_name globals_init 0 500 0).2.2.2.2.1 (fun _ => by decide),
    (slot_statistics_monotone loadgen_name globals_init 0 500 0).2.2.2.2.2
      (fun _ => by decide)⟩

/-- C5, as stated, fails: two cycles with durations 4294967295 and 1 on the fresh pool
leave `total_usage_time = 0` in slot 0, not the sum 4294967296. -/
theorem round_trip_accounting_counterexample :
    ((claim_release_cycles globals_init
        [(loadgen_name, 4294967295), (loadgen_name, 1)]).resources 0).total_usage_time
      ≠ 4294967295 + 1 := by
  decide

/-- C5, amended. Round-trip accounting: for every sequence of `K` claim/release cycles with
durations `d1..dK` on the fresh pool, all of which use slot 0, that slot ends free with
`total_usage_time` equal to `d1 + ... + dK` modulo `2 ^ 32` and `usage_count` equal to `K`
modulo `2 ^ 32` (the exact sum and `K` whenever these are below `2 ^ 32`). -/
theorem round_trip_accounting (cycles : List (List Char × Nat)) :
    ((claim_release_cycles globals_init cycles).resources 0).in_use = false ∧
    ((claim_release_cycles globals_init cycles).resources 0).usage_count
      = cycles.length % UINT32_MOD ∧
    ((claim_release_cycles globals_init cycles).resources 0).total_usage_time
      = (cycles.map Prod.snd).sum % UINT32_MOD := by
  induction cycles using List.reverseRecOn with
  | nil => exact ⟨rfl, rfl, rfl⟩
  | append_singleton cs c ih =>
    obtain ⟨hfree, hcount, htime⟩ := ih
    have hstep := cycle_on_slot_zero c.1 c.2 (claim_release_cycles globals_init cs) hfree
    have hrun : claim_release_cycles globals_init (cs ++ [c]) =
        release_resource (acquire_resource c.1 (claim_release_cycles globals_init cs)).2 c.2
          (acquire_resource c.1 (claim_release_cycles globals_init cs)).1 := by
      simp [claim_release_cycles, List.foldl_append]
    rw [hrun]
    refine ⟨hstep.1, ?_, ?_⟩
    · rw [hstep.2.1, hcount]
      simp only [List.length_append, List.length_singleton, UINT32_MOD]
      omega
    · rw [hstep.2.2, htime]
      simp only [List.map_append, List.sum_append, List.map_cons, List.map_nil, List.sum_cons,
        List.sum_nil, UINT32_MOD]
      omega

/-! ## Claims about the gate and the tasks -/

/-- C2. Capacity invariant: in every state reachable from the initial state by any
schedule of the steps of the producers and the load generator (take, `acquire_resource`,
`release_resource` of the slot claimed, give), the number of slots with `in_use = true`
never exceeds `MAX_RESOURCES = 5`; it never even exceeds the number of tickets handed out. -/
theorem capacity_invariant (evs : List (Fin NUM_TASKS × Nat)) :
    occupied (run system_init evs).g ≤ MAX_RESOURCES ∧
    occupied (run system_init evs).g + (run system_init evs).g.xCountingSemaphore
      ≤ MAX_RESOURCES := by
  have h := consistent_run evs system_init consistent_init
  have h1 := h.tickets
  have h2 := h.occupied_eq
  have h3 := slot_holders_le_ticket_holders (run system_init evs)
  constructor <;> omega

/-- C3. No partial admission: for every state, a producer iteration whose `xSemaphoreTake`
times out leaves the free-ticket count, every field of every slot and the
`resources_in_use` gauge as they were. -/
theorem producer_timeout_no_partial_admission (task_name : List Char) (r : Nat) (g : Globals)
    (h : (producer_take (producer_request g)).2 = false) :
    (producer_iteration task_name r g).xCountingSemaphore = g.xCountingSemaphore ∧
    (∀ i : Fin MAX_RESOURCES,
      (producer_iteration task_name r g).resources i = g.resources i) ∧
    (producer_iteration task_name r g).stats.resources_in_use = g.stats.resources_in_use := by
  have hg := producer_take_timeout (producer_request g) h
  have hit : producer_iteration task_name r g = (producer_take (producer_request g)).1 := by
    unfold producer_iteration
    simp [h]
  rw [hit]
  refine ⟨hg.1, fun i => ?_, hg.2.2⟩
  rw [hg.2.1]
  rfl

/-- Witness for C3: a producer iteration when every ticket is taken. -/
theorem producer_timeout_no_partial_admission_witness :
    (producer_take (producer_request globals_no_ticket)).2 = false ∧
    (producer_iteration (producer_name 1) 7 globals_no_ticket).xCountingSemaphore = 0 ∧
    (producer_iteration (producer_name 1) 7 globals_no_ticket).stats.resources_in_use = 0 :=
  have h := producer_timeout_no_partial_admission (producer_name 1) 7 globals_no_ticket
    (by decide)
  ⟨by decide, h.1, h.2.2⟩

/-- C10. Exhaustion is unreachable under correct use of the gate: in every state of every
schedule, a call of `acquire_resource` by a task that holds a ticket does not return -1,
so the task goes on to hold a slot and never takes the no-resource-free branch. -/
theorem exhaustion_unreachable (evs : List (Fin NUM_TASKS × Nat)) (t : Fin NUM_TASKS) (r : Nat)
    (h : (run system_init evs).pc t = .admitted) :
    (acquire_resource (task_kind t).name (run system_init evs).g).2 ≠ -1 ∧
    0 ≤ (acquire_resource (task_kind t).name (run system_init evs).g).2 ∧
    (system_step (run system_init evs) (t, r)).pc t ≠ .giving := by
  have hc := consistent_run evs system_init consistent_init
  have h1 := hc.tickets
  have h2 := hc.occupied_eq
  have h3 := slot_holders_lt_ticket_holders (run system_init evs) t h
  rcases acquire_resource_cases (task_kind t).name (run system_init evs).g with
    ⟨k, _, _, heq⟩ | ⟨hall, _⟩
  · have hstep : task_step (task_kind t) r .admitted (run system_init evs).g
        = (.holding (k.val : Int) ((task_kind t).use_ms r),
            claim_slot (task_kind t).name k (run system_init evs).g) := by
      simp [task_step, heq]
    refine ⟨?_, ?_, ?_⟩
    · rw [heq]
      simp only
      omega
    · rw [heq]
      simp
    · simp only [system_step, h, hstep, Function.update_same]
      exact Pc.noConfusion
  · have h4 := occupied_eq_max_of_all (run system_init evs).g hall
    omega

/-- Witness for C10: producer 1 after its request and its successful take. -/
theorem exhaustion_unreachable_witness :
    (run system_init [(0, 7), (0, 7)]).pc 0 = .admitted ∧
    (acquire_resource (task_kind 0).name (run system_init [(0, 7), (0, 7)]).g).2 ≠ -1 :=
  ⟨by decide, (exhaustion_unreachable [(0, 7), (0, 7)] 0 7 (by decide)).1⟩

/-! ## Statistics counters along a schedule -/

theorem sum_update_weight_idx {n : Nat} {α : Type} (f : Fin n → α) (w : Fin n → α → Nat)
    (i : Fin n) (v : α) :
    (∑ j : Fin n, w j (Function.update f i v j)) + w i (f i)
      = (∑ j : Fin n, w j (f j)) + w i v := by
  rw [← Finset.add_sum_erase Finset.univ (fun j => w j (Function.update f i v j))
    (Finset.mem_univ i)]
  rw [← Finset.add_sum_erase Finset.univ (fun j => w j (f j)) (Finset.mem_univ i)]
  have hrest : ∑ x ∈ Finset.univ.erase i, w x (Function.update f i v x)
      = ∑ x ∈ Finset.univ.erase i, w x (f x) :=
    Finset.sum_congr rfl
      (fun x hx => by rw [Function.update_noteq (Finset.ne_of_mem_erase hx)])
  simp only [Function.update_same, hrest]
  omega

theorem in_flight_update (s : System) (g1 : Globals) (t : Fin NUM_TASKS) (p : Pc) :
    in_flight { g := g1, pc := Function.update s.pc t p }
        + (if (task_kind t).is_producer = true ∧ s.pc t = .waiting then 1 else 0)
      = in_flight s + (if (task_kind t).is_producer = true ∧ p = .waiting then 1 else 0) := by
  unfold in_flight
  exact sum_update_weight_idx s.pc
    (fun u q => if (task_kind u).is_producer = true ∧ q = .waiting then 1 else 0) t p

theorem in_flight_pos (s : System) (t : Fin NUM_TASKS)
    (hk : (task_kind t).is_producer = true) (hpc : s.pc t = .waiting) : 0 < in_flight s := by
  unfold in_flight
  have hle := Finset.single_le_sum
    (f := fun u : Fin NUM_TASKS =>
      if (task_kind u).is_producer = true ∧ s.pc u = .waiting then 1 else 0)
    (fun u _ => Nat.zero_le _) (Finset.mem_univ t)
  simp only [hk, hpc, and_self, if_true] at hle
  omega

theorem acquire_resource_counters (user_name : List Char) (g : Globals) :
    (acquire_resource user_name g).1.stats.total_requests = g.stats.total_requests ∧
    (acquire_resource user_name g).1.stats.successful_acquisitions
      = g.stats.successful_acquisitions ∧
    (acquire_resource user_name g).1.stats.failed_acquisitions
      = g.stats.failed_acquisitions := by
  rcases acquire_resource_cases user_name g with ⟨k, _, _, heq⟩ | ⟨_, heq⟩
  · rw [heq]
    exact ⟨rfl, rfl, rfl⟩
  · rw [heq]
    exact ⟨rfl, rfl, rfl⟩

theorem release_resource_counters (resource_index : Int) (d : Nat) (g : Globals) :
    (release_resource resource_index d g).stats.total_requests = g.stats.total_requests ∧
    (release_resource resource_index d g).stats.successful_acquisitions
      = g.stats.successful_acquisitions ∧
    (release_resource resource_index d g).stats.failed_acquisitions
      = g.stats.failed_acquisitions := by
  rcases release_resource_cases resource_index d g with ⟨i, hi⟩ | hsame
  · rw [hi, release_resource_in_range]
    exact ⟨rfl, rfl, rfl⟩
  · rw [hsame]
    exact ⟨rfl, rfl, rfl⟩

theorem producer_take_counters (g : Globals) :
    (producer_take g).1.stats.total_requests = g.stats.total_requests ∧
    ((producer_take g).2 = true →
      (producer_take g).1.stats.successful_acquisitions
        = (g.stats.successful_acquisitions + 1) % UINT32_MOD ∧
      (producer_take g).1.stats.failed_acquisitions = g.stats.failed_acquisitions) ∧
    ((producer_take g).2 = false →
      (producer_take g).1.stats.successful_acquisitions = g.stats.successful_acquisitions ∧
      (producer_take g).1.stats.failed_acquisitions
        = (g.stats.failed_acquisitions + 1) % UINT32_MOD) := by
  unfold producer_take xSemaphoreTake
  by_cases hc : 0 < g.xCountingSemaphore
  · simp [hc]
  · simp [hc]

theorem loadgen_take_stats (g : Globals) : (loadgen_take g).1.stats = g.stats := by
  unfold loadgen_take xSemaphoreTake
  by_cases hc : 0 < g.xCountingSemaphore
  · simp [hc]
  · simp [hc]

/-- The counters after a step whose effect on them is known. -/
theorem counters_frame (s : System) (t : Fin NUM_TASKS) (p : Pc) (g1 : Globals) (a : Nat)
    (hflow : s.g.stats.successful_acquisitions + s.g.stats.failed_acquisitions + in_flight s
      = s.g.stats.total_requests)
    (htot : g1.stats.total_requests = s.g.stats.total_requests + a)
    (hsf : g1.stats.successful_acquisitions + g1.stats.failed_acquisitions
        + (if (task_kind t).is_producer = true ∧ p = .waiting then 1 else 0)
      = s.g.stats.successful_acquisitions + s.g.stats.failed_acquisitions
        + (if (task_kind t).is_producer = true ∧ s.pc t = .waiting then 1 else 0) + a) :
    g1.stats.total_requests = s.g.stats.total_requests + a ∧
    g1.stats.successful_acquisitions + g1.stats.failed_acquisitions
        + in_flight { g := g1, pc := Function.update s.pc t p }
      = g1.stats.total_requests := by
  have h1 := in_flight_update s g1 t p
  refine ⟨htot, ?_⟩
  omega

theorem counters_step (s : System) (ev : Fin NUM_TASKS × Nat)
    (hflow : s.g.stats.successful_acquisitions + s.g.stats.failed_acquisitions + in_flight s
      = s.g.stats.total_requests)
    (hroom : s.g.stats.total_requests
        + (if (task_kind ev.1).is_producer = true ∧ s.pc ev.1 = .top then 1 else 0)
      < UINT32_MOD) :
    (system_step s ev).g.stats.total_requests
      = s.g.stats.total_requests
        + (if (task_kind ev.1).is_producer = true ∧ s.pc ev.1 = .top then 1 else 0) ∧
    (system_step s ev).g.stats.successful_acquisitions
        + (system_step s ev).g.stats.failed_acquisitions + in_flight (system_step s ev)
      = (system_step s ev).g.stats.total_requests := by
  obtain ⟨t, r⟩ := ev
  unfold system_step
  simp only at hroom ⊢
  cases hpc : s.pc t with
  | top =>
    cases hkind : task_kind t with
    | producer producer_id =>
      have hstep : task_step (.producer producer_id) r .top s.g
          = (.waiting, producer_request s.g) := rfl
      rw [hstep]
      simp only [hkind, hpc, TaskKind.is_producer, and_self, if_true] at hroom ⊢
      have htot : (producer_request s.g).stats.total_requests
          = s.g.stats.total_requests + 1 := by
        show (s.g.stats.total_requests + 1) % UINT32_MOD = _
        exact Nat.mod_eq_of_lt hroom
      refine counters_frame s t .waiting _ 1 hflow htot ?_
      simp only [hkind, hpc, TaskKind.is_producer, and_self, if_true]
      simp [producer_request]
    | load_generator =>
      have hstep : task_step .load_generator r .top s.g = (.waiting, s.g) := rfl
      rw [hstep]
      simp only [hkind, TaskKind.is_producer, Bool.false_eq_true, false_and, if_false,
        Nat.add_zero]
      have h := counters_frame s t .waiting s.g 0 hflow rfl
        (by simp [hkind, TaskKind.is_producer])
      simpa using h
  | waiting =>
    cases hkind : task_kind t with
    | producer producer_id =>
      have hpos := in_flight_pos s t (by rw [hkind]; rfl) hpc
      have hc := producer_take_counters s.g
      simp only [hkind, hpc, TaskKind.is_producer, true_and, if_false, Nat.add_zero]
        at hroom ⊢
      simp only [UINT32_MOD] at hroom hc
      by_cases hadm : (producer_take s.g).2 = true
      · have hstep : task_step (.producer producer_id) r .waiting s.g
            = (.admitted, (producer_take s.g).1) := by
          simp [task_step, hadm]
        rw [hstep]
        have h := counters_frame s t .admitted (producer_take s.g).1 0 hflow hc.1
          (by
            simp only [hkind, hpc, TaskKind.is_producer, true_and, if_true, if_false]
            rw [(hc.2.1 hadm).1, (hc.2.1 hadm).2]
            simp only [reduceCtorEq, if_false]
            omega)
        simpa using h
      · have hadm2 : (producer_take s.g).2 = false := by
          cases hb : (producer_take s.g).2
          · rfl
          · exact absurd hb hadm
        have hstep : task_step (.producer producer_id) r .waiting s.g
            = (.top, (producer_take s.g).1) := by
          simp [task_step, hadm2]
        rw [hstep]
        have h := counters_frame s t .top (producer_take s.g).1 0 hflow hc.1
          (by
            simp only [hkind, hpc, TaskKind.is_producer, true_and, if_true, if_false]
            rw [(hc.2.2 hadm2).1, (hc.2.2 hadm2).2]
            simp only [reduceCtorEq, if_false]
            omega)
        simpa using h
    | load_generator =>
      have hst := loadgen_take_stats s.g
      have hstep : ∃ p, p ≠ Pc.waiting ∧
          task_step .load_generator r .waiting s.g = (p, (loadgen_take s.g).1) := by
        by_cases hadm : (loadgen_take s.g).2 = true
        · exact ⟨.admitted, Pc.noConfusion, by simp [task_step, hadm]⟩
        · exact ⟨.top, Pc.noConfusion, by simp [task_step, hadm]⟩
      obtain ⟨p, _, hstep⟩ := hstep
      rw [hstep]
      have h := counters_frame s t p (loadgen_take s.g).1 0 hflow (by rw [hst]; rfl)
        (by simp [hkind, TaskKind.is_producer, hst])
      simpa [hkind, TaskKind.is_producer] using h
  | admitted =>
    have hc := acquire_resource_counters (task_kind t).name s.g
    have hstep : ∃ p, p ≠ Pc.waiting ∧ task_step (task_kind t) r .admitted s.g
        = (p, (acquire_resource (task_kind t).name s.g).1) := by
      by_cases hidx : 0 ≤ (acquire_resource (task_kind t).name s.g).2
      · exact ⟨.holding (acquire_resource (task_kind t).name s.g).2 ((task_kind t).use_ms r),
          Pc.noConfusion, by simp [task_step, hidx]⟩
      · exact ⟨.giving, Pc.noConfusion, by simp [task_step, hidx]⟩
    obtain ⟨p, hp, hstep⟩ := hstep
    rw [hstep]
    have h := counters_frame s t p (acquire_resource (task_kind t).name s.g).1 0 hflow
      (by rw [hc.1]; rfl) (by simp [hpc, hp, hc.2.1, hc.2.2])
    simpa [hpc] using h
  | holding res_idx use_ms =>
    have hc := release_resource_counters res_idx use_ms s.g
    have hstep : task_step (task_kind t) r (.holding res_idx use_ms) s.g
        = (.giving, release_resource res_idx use_ms s.g) := rfl
    rw [hstep]
    have h := counters_frame s t .giving (release_resource res_idx use_ms s.g) 0 hflow
      (by rw [hc.1]; rfl) (by simp [hpc, hc.2.1, hc.2.2])
    simpa [hpc] using h
  | giving =>
    have hstep : task_step (task_kind t) r .giving s.g = (.top, give_ticket s.g) := rfl
    rw [hstep]
    have h := counters_frame s t .top (give_ticket s.g) 0 hflow rfl
      (by simp [hpc, give_ticket])
    simpa [hpc] using h

theorem counters_run (evs : List (Fin NUM_TASKS × Nat)) :
    ∀ s : System,
      s.g.stats.successful_acquisitions + s.g.stats.failed_acquisitions + in_flight s
        = s.g.stats.total_requests →
      s.g.stats.total_requests + requests_made s evs < UINT32_MOD →
      (run s evs).g.stats.total_requests = s.g.stats.total_requests + requests_made s evs ∧
      (run s evs).g.stats.successful_acquisitions + (run s evs).g.stats.failed_acquisitions
          + in_flight (run s evs)
        = (run s evs).g.stats.total_requests := by
  induction evs with
  | nil =>
    intro s hflow _
    exact ⟨rfl, hflow⟩
  | cons ev evs ih =>
    intro s hflow hroom
    simp only [requests_made] at hroom
    have hs := counters_step s ev hflow (by omega)
    have hi := ih (system_step s ev) hs.2 (by rw [hs.1]; omega)
    show (run (system_step s ev) evs).g.stats.total_requests = _ ∧ _
    refine ⟨?_, hi.2⟩
    rw [hi.1, hs.1]
    simp only [requests_made]
    omega

/-! ## One producer running alone -/

theorem run_append (s : System) (evs evs1 : List (Fin NUM_TASKS × Nat)) :
    run s (evs ++ evs1) = run (run s evs) evs1 := by
  simp [run, List.foldl_append]

theorem run_solo (t : Fin NUM_TASKS) (r : Nat) :
    ∀ (n : Nat) (s : System),
      ((run s (List.replicate n (t, r))).pc t, (run s (List.replicate n (t, r))).g)
        = (fun x : Pc × Globals => task_step (task_kind t) r x.1 x.2)^[n] (s.pc t, s.g) := by
  intro n
  induction n with
  | zero => intro s; rfl
  | succ n ih =>
    intro s
    have hrun : run s (List.replicate (n + 1) (t, r))
        = run (system_step s (t, r)) (List.replicate n (t, r)) := rfl
    rw [hrun, ih (system_step s (t, r)), Function.iterate_succ_apply]
    simp [system_step]

theorem acquire_resource_slot_zero (user_name : List Char) (g : Globals)
    (h0 : (g.resources 0).in_use = false) :
    acquire_resource user_name g
      = (claim_slot user_name 0 g, (((0 : Fin MAX_RESOURCES).val : Nat) : Int)) := by
  rcases acquire_resource_cases user_name g with ⟨k, _, hbelow, heq⟩ | ⟨hall, _⟩
  · have hk0 : k = 0 := by
      by_contra hne
      have hpos : (0 : Fin MAX_RESOURCES) < k := by
        have : k.val ≠ 0 := fun hv => hne (Fin.ext hv)
        show (0 : Nat) < k.val
        omega
      have := hbelow 0 hpos
      rw [h0] at this
      exact Bool.noConfusion this
    rw [heq, hk0]
  · rw [hall 0] at h0
    exact Bool.noConfusion h0

/-- Five steps of a producer that finds a free ticket and slot 0 free. -/
theorem solo_producer_iteration (producer_id r : Nat) (g : Globals)
    (hsem : 0 < g.xCountingSemaphore) (hfree : (g.resources 0).in_use = false) :
    ∃ g5 : Globals,
      (fun x : Pc × Globals => task_step (.producer producer_id) r x.1 x.2)^[5] (.top, g)
        = (.top, g5) ∧
      g5.xCountingSemaphore = g.xCountingSemaphore ∧
      (g5.resources 0).in_use = false ∧
      g5.stats.total_requests = (g.stats.total_requests + 1) % UINT32_MOD ∧
      g5.stats.successful_acquisitions = (g.stats.successful_acquisitions + 1) % UINT32_MOD ∧
      g5.stats.failed_acquisitions = g.stats.failed_acquisitions := by
  have hadm : (producer_take (producer_request g)).2 = true := by
    have hs : 0 < (producer_request g).xCountingSemaphore := hsem
    simp [producer_take, xSemaphoreTake, hs]
  have hg2 := producer_take_admitted (producer_request g) hadm
  have hc2 := producer_take_counters (producer_request g)
  have hfree2 : (((producer_take (producer_request g)).1).resources 0).in_use = false := by
    rw [hg2.2]
    exact hfree
  have hacq := acquire_resource_slot_zero (producer_name producer_id)
    (producer_take (producer_request g)).1 hfree2
  refine ⟨give_ticket (release_resource (((0 : Fin MAX_RESOURCES).val : Nat) : Int)
    (producer_use_ms r) (claim_slot (producer_name producer_id) 0
      (producer_take (producer_request g)).1)), ?_, ?_, ?_, ?_, ?_, ?_⟩
  · simp [Function.iterate_succ, task_step, hadm, hacq, TaskKind.name, TaskKind.use_ms]
  · rw [release_resource_in_range]
    have h1 : (producer_request g).xCountingSemaphore = g.xCountingSemaphore := rfl
    have h2 := hg2.1
    simp only [give_ticket, xSemaphoreGive, claim_slot]
    omega
  · rw [release_resource_in_range]
    simp [give_ticket]
  · rw [release_resource_in_range]
    simp only [give_ticket, claim_slot]
    rw [hc2.1]
    rfl
  · rw [release_resource_in_range]
    simp only [give_ticket, claim_slot]
    rw [(hc2.2.1 hadm).1]
    rfl
  · rw [release_resource_in_range]
    simp only [give_ticket, claim_slot]
    rw [(hc2.2.1 hadm).2]
    rfl

/-- Producer 1 alone: the state after `n` complete iterations. -/
theorem solo_iterations (n : Nat) :
    (run system_init (List.replicate (5 * n) ((0 : Fin NUM_TASKS), 0))).pc 0 = .top ∧
    (run system_init (List.replicate (5 * n) ((0 : Fin NUM_TASKS), 0))).g.xCountingSemaphore
      = MAX_RESOURCES ∧
    ((run system_init (List.replicate (5 * n) ((0 : Fin NUM_TASKS), 0))).g.resources 0).in_use
      = false ∧
    (run system_init (List.replicate (5 * n) ((0 : Fin NUM_TASKS), 0))).g.stats.total_requests
      = n % UINT32_MOD ∧
    (run system_init (List.replicate (5 * n)
      ((0 : Fin NUM_TASKS), 0))).g.stats.successful_acquisitions = n % UINT32_MOD ∧
    (run system_init (List.replicate (5 * n)
      ((0 : Fin NUM_TASKS), 0))).g.stats.failed_acquisitions = 0 := by
  induction n with
  | zero => exact ⟨rfl, rfl, rfl, rfl, rfl, rfl⟩
  | succ n ih =>
    obtain ⟨hpc, hsem, hfree, htot, hsucc, hfail⟩ := ih
    have hlist : List.replicate (5 * (n + 1)) ((0 : Fin NUM_TASKS), 0)
        = List.replicate (5 * n) ((0 : Fin NUM_TASKS), 0)
          ++ List.replicate 5 ((0 : Fin NUM_TASKS), 0) := by
      rw [← List.replicate_add, Nat.mul_succ]
    rw [hlist, run_append]
    generalize run system_init (List.replicate (5 * n) ((0 : Fin NUM_TASKS), 0)) = s at *
    obtain ⟨g5, hit, h1, h2, h3, h4, h5⟩ :=
      solo_producer_iteration 1 0 s.g (by rw [hsem]; decide) hfree
    have hsolo := run_solo 0 0 5 s
    have hkind : task_kind 0 = .producer 1 := rfl
    rw [hkind, hpc, hit] at hsolo
    have hpc5 := congrArg Prod.fst hsolo
    have hg5 := congrArg Prod.snd hsolo
    simp only at hpc5 hg5
    rw [hpc5, hg5]
    refine ⟨rfl, by rw [h1, hsem], h2, ?_, ?_, by rw [h5, hfail]⟩
    · rw [h3, htot]
      simp only [UINT32_MOD]
      omega
    · rw [h4, hsucc]
      simp only [UINT32_MOD]
      omega

/-- Producer 1 alone: the counters when it has counted its next request. -/
theorem solo_next_request (n : Nat) :
    (run system_init (List.replicate (5 * n + 1)
      ((0 : Fin NUM_TASKS), 0))).g.stats.total_requests = (n % UINT32_MOD + 1) % UINT32_MOD ∧
    (run system_init (List.replicate (5 * n + 1)
      ((0 : Fin NUM_TASKS), 0))).g.stats.successful_acquisitions = n % UINT32_MOD ∧
    (run system_init (List.replicate (5 * n + 1)
      ((0 : Fin NUM_TASKS), 0))).g.stats.failed_acquisitions = 0 := by
  obtain ⟨hpc, _, _, htot, hsucc, hfail⟩ := solo_iterations n
  have hlist : List.replicate (5 * n + 1) ((0 : Fin NUM_TASKS), 0)
      = List.replicate (5 * n) ((0 : Fin NUM_TASKS), 0)
        ++ List.replicate 1 ((0 : Fin NUM_TASKS), 0) := by
    rw [← List.replicate_add]
  rw [hlist, run_append]
  generalize run system_init (List.replicate (5 * n) ((0 : Fin NUM_TASKS), 0)) = s at *
  have hsolo := run_solo 0 0 1 s
  have hkind : task_kind 0 = .producer 1 := rfl
  rw [hkind, hpc] at hsolo
  have hg1 := congrArg Prod.snd hsolo
  simp only [Function.iterate_one, task_step] at hg1
  rw [hg1]
  refine ⟨?_, hsucc, hfail⟩
  show (s.g.stats.total_requests + 1) % UINT32_MOD = _
  rw [htot]

/-! ## Claims about the statistics and the gate count -/

/-- C11, as stated, fails: when producer 1, running alone, has completed 4294967295
iterations and counted its next request, `total_requests` has wrapped to 0 while
`successful_acquisitions` is 4294967295. -/
theorem statistics_invariant_counterexample :
    ¬ ((run system_init (List.replicate (5 * 4294967295 + 1)
          ((0 : Fin NUM_TASKS), 0))).g.stats.successful_acquisitions
        + (run system_init (List.replicate (5 * 4294967295 + 1)
          ((0 : Fin NUM_TASKS), 0))).g.stats.failed_acquisitions
      ≤ (run system_init (List.replicate (5 * 4294967295 + 1)
          ((0 : Fin NUM_TASKS), 0))).g.stats.total_requests) := by
  obtain ⟨h1, h2, h3⟩ := solo_next_request 4294967295
  rw [h1, h2, h3]
  decide

/-- C11, amended. Statistics invariant: in every state reached from the initial statistics
by a schedule of the tasks in which fewer than `2 ^ 32` requests have been counted,
`successful_acquisitions + failed_acquisitions` is at most `total_requests`; the difference
is the number of producers whose take has not returned yet. -/
theorem statistics_invariant (evs : List (Fin NUM_TASKS × Nat))
    (h : requests_made system_init evs < UINT32_MOD) :
    (run system_init evs).g.stats.successful_acquisitions
        + (run system_init evs).g.stats.failed_acquisitions
      ≤ (run system_init evs).g.stats.total_requests ∧
    (run system_init evs).g.stats.successful_acquisitions
        + (run system_init evs).g.stats.failed_acquisitions + in_flight (run system_init evs)
      = (run system_init evs).g.stats.total_requests ∧
    (run system_init evs).g.stats.total_requests = requests_made system_init evs := by
  have hinit : system_init.g.stats.successful_acquisitions
      + system_init.g.stats.failed_acquisitions + in_flight system_init
      = system_init.g.stats.total_requests := by decide
  have h0 : system_init.g.stats.total_requests = 0 := rfl
  have hrun := counters_run evs system_init hinit (by rw [h0]; omega)
  refine ⟨by omega, hrun.2, ?_⟩
  rw [hrun.1, h0]
  omega

/-- Witness for C11: two producers have requested, one is admitted, one still waits. -/
theorem statistics_invariant_witness :
    requests_made system_init [(0, 7), (0, 7), (1, 3)] < UINT32_MOD ∧
    (run system_init [(0, 7), (0, 7), (1, 3)]).g.stats.successful_acquisitions
        + (run system_init [(0, 7), (0, 7), (1, 3)]).g.stats.failed_acquisitions
      ≤ (run system_init [(0, 7), (0, 7), (1, 3)]).g.stats.total_requests :=
  ⟨by decide, (statistics_invariant [(0, 7), (0, 7), (1, 3)] (by decide)).1⟩

/-- C12. Gate count bounds: the semaphore is created with maximum and initial count both
`MAX_RESOURCES = 5`, and in every state of every schedule of the producers and the load
generator the free-ticket count is between 0 and that maximum. -/
theorem gate_count_bounds (evs : List (Fin NUM_TASKS × Nat)) :
    app_main_semaphore = (MAX_RESOURCES, MAX_RESOURCES) ∧
    MAX_RESOURCES = 5 ∧
    system_init.g.xCountingSemaphore = app_main_semaphore.2 ∧
    0 ≤ (run system_init evs).g.xCountingSemaphore ∧
    (run system_init evs).g.xCountingSemaphore ≤ app_main_semaphore.1 := by
  have h := (consistent_run evs system_init consistent_init).tickets
  refine ⟨rfl, rfl, rfl, Nat.zero_le _, ?_⟩
  show _ ≤ MAX_RESOURCES
  omega

/-! ## Well-formed sequences of calls on the pool -/

theorem occupied_le (g : Globals) : occupied g ≤ MAX_RESOURCES := by
  unfold occupied
  calc ∑ i : Fin MAX_RESOURCES, (if (g.resources i).in_use = true then 1 else 0)
      ≤ ∑ _i : Fin MAX_RESOURCES, 1 :=
        Finset.sum_le_sum (fun i _ => by split <;> omega)
    _ = MAX_RESOURCES := by simp

theorem occupied_eq_zero_of_none (g : Globals)
    (h : ∀ i : Fin MAX_RESOURCES, (g.resources i).in_use = false) : occupied g = 0 := by
  unfold occupied
  simp [h]

theorem pool_consistent_init : PoolConsistent globals_init [] (fun _ => 0) where
  nodup := List.nodup_nil
  held_in_use := by
    intro idx h
    simp at h
  in_use_held := by
    intro i h
    exact absurd h (by simp [globals_init, resources_init])
  gauge := by decide
  usage := by
    intro i
    simp [globals_init, resources_init]

theorem pool_consistent_claim (user_name : List Char) (g : Globals) (held : List Int)
    (cycles : Fin MAX_RESOURCES → Nat) (k : Fin MAX_RESOURCES)
    (h : PoolConsistent g held cycles) (hk : (g.resources k).in_use = false) :
    PoolConsistent (claim_slot user_name k g) ((k.val : Int) :: held) cycles where
  nodup := by
    refine List.nodup_cons.mpr ⟨?_, h.nodup⟩
    intro hmem
    obtain ⟨i, hi, hin⟩ := h.held_in_use _ hmem
    have hik : i = k := Fin.ext (by omega)
    rw [hik, hk] at hin
    exact Bool.noConfusion hin
  held_in_use := by
    intro idx hmem
    rcases List.mem_cons.mp hmem with hhead | htail
    · exact ⟨k, hhead, by simp [claim_slot_resources]⟩
    · obtain ⟨i, hi, hin⟩ := h.held_in_use idx htail
      refine ⟨i, hi, ?_⟩
      simp only [claim_slot_resources]
      split
      · rfl
      · exact hin
  in_use_held := by
    intro i hin
    simp only [claim_slot_resources] at hin
    by_cases hik : i = k
    · rw [hik]
      exact List.mem_cons_self _ _
    · simp only [hik, if_false] at hin
      exact List.mem_cons_of_mem _ (h.in_use_held i hin)
  gauge := by
    have h1 := occupied_update g (claim_slot user_name k g) k _ rfl
    have h2 : occupied (claim_slot user_name k g) ≤ 5 := occupied_le (claim_slot user_name k g)
    have h3 := h.gauge
    simp only [hk, Bool.false_eq_true, if_false, if_true] at h1
    show (g.stats.resources_in_use + 1) % UINT32_MOD = _
    rw [Nat.mod_eq_of_lt (by simp only [UINT32_MOD]; omega)]
    omega
  usage := by
    intro i
    simp only [claim_slot_resources]
    by_cases hik : i = k
    · subst hik
      have hu := h.usage i
      simp only [hk, Bool.false_eq_true, if_false, Nat.add_zero] at hu
      simp only [if_true, hu, UINT32_MOD]
      omega
    · simp only [hik, if_false]
      exact h.usage i

theorem pool_consistent_release (g : Globals) (held : List Int)
    (cycles : Fin MAX_RESOURCES → Nat) (i : Fin MAX_RESOURCES) (d : Nat)
    (h : PoolConsistent g held cycles) (hmem : (i.val : Int) ∈ held) :
    PoolConsistent (release_resource (i.val : Int) d g) (held.erase (i.val : Int))
      (fun j => cycles j + (if j = i then 1 else 0)) where
  nodup := h.nodup.erase _
  held_in_use := by
    intro idx hidx
    have hm := (List.Nodup.mem_erase_iff h.nodup).mp hidx
    obtain ⟨j, hj, hin⟩ := h.held_in_use idx hm.2
    refine ⟨j, hj, ?_⟩
    have hji : j ≠ i := by
      intro hji
      rw [hji] at hj
      exact hm.1 hj
    rw [release_resource_in_range]
    simp only [Function.update_noteq hji]
    exact hin
  in_use_held := by
    intro j hin
    rw [release_resource_in_range] at hin
    by_cases hji : j = i
    · subst hji
      simp at hin
    · simp only [Function.update_noteq hji] at hin
      refine (List.Nodup.mem_erase_iff h.nodup).mpr ⟨?_, h.in_use_held j hin⟩
      intro heq
      exact hji (Fin.ext (by omega))
  gauge := by
    obtain ⟨j, hj, hin⟩ := h.held_in_use _ hmem
    have hji : j = i := Fin.ext (by omega)
    rw [hji] at hin
    have h1 := occupied_update g (release_resource (i.val : Int) d g) i _
      (by rw [release_resource_in_range])
    have h3 := h.gauge
    simp only [hin, Bool.false_eq_true, if_false, if_true] at h1
    have h4 : (release_resource (i.val : Int) d g).stats.resources_in_use
        = if 0 < g.stats.resources_in_use then g.stats.resources_in_use - 1
          else g.stats.resources_in_use := by
      rw [release_resource_in_range]
    rw [h4]
    split <;> omega
  usage := by
    obtain ⟨j, hj, hin⟩ := h.held_in_use _ hmem
    have hji : j = i := Fin.ext (by omega)
    rw [hji] at hin
    intro j
    rw [release_resource_in_range]
    by_cases hji : j = i
    · subst hji
      have hu := h.usage j
      simp only [hin, if_true] at hu
      simp [hu]
    · simp only [Function.update_noteq hji, hji, if_false, Nat.add_zero]
      exact h.usage j

theorem completed_cycles_cons (i : Fin MAX_RESOURCES) (op : PoolOp) (ops : List PoolOp) :
    completed_cycles i (op :: ops)
      = completed_cycles i ops
        + (match op with
          | .release resource_index _ => if resource_index = (i.val : Int) then 1 else 0
          | .acquire _ => 0) := by
  unfold completed_cycles
  rw [List.countP_cons]
  cases op with
  | acquire user_name => simp
  | release resource_index usage_time_ms =>
    by_cases h : resource_index = (i.val : Int) <;> simp [h]

theorem pool_consistent_trace (ops : List PoolOp) :
    ∀ (g : Globals) (held : List Int) (cycles : Fin MAX_RESOURCES → Nat) (g1 : Globals)
      (held1 : List Int),
      PoolConsistent g held cycles → pool_trace g held ops = some (g1, held1) →
      PoolConsistent g1 held1 (fun i => cycles i + completed_cycles i ops) := by
  induction ops with
  | nil =>
    intro g held cycles g1 held1 h htr
    simp only [pool_trace, Option.some.injEq, Prod.mk.injEq] at htr
    rw [← htr.1, ← htr.2]
    simpa [completed_cycles] using h
  | cons op ops ih =>
    intro g held cycles g1 held1 h htr
    cases op with
    | acquire user_name =>
      simp only [pool_trace] at htr
      have hcc : ∀ i, completed_cycles i (PoolOp.acquire user_name :: ops)
          = completed_cycles i ops := by
        intro i
        simp [completed_cycles_cons]
      simp only [hcc]
      rcases acquire_resource_cases user_name g with ⟨k, hk, _, heq⟩ | ⟨_, heq⟩
      · rw [heq] at htr
        simp only [Int.natCast_nonneg, if_true] at htr
        exact ih _ _ cycles g1 held1 (pool_consistent_claim user_name g held cycles k h hk) htr
      · rw [heq] at htr
        simp only [Int.reduceNeg, Left.nonneg_neg_iff, Int.reduceLE, if_false] at htr
        exact ih _ _ cycles g1 held1 h htr
    | release resource_index usage_time_ms =>
      simp only [pool_trace] at htr
      by_cases hmem : resource_index ∈ held
      · simp only [hmem, if_true] at htr
        obtain ⟨i, hi, _⟩ := h.held_in_use _ hmem
        subst hi
        have hstep := pool_consistent_release g held cycles i usage_time_ms h hmem
        have hfin := ih _ _ _ g1 held1 hstep htr
        have hfun : (fun j => cycles j + (if j = i then 1 else 0) + completed_cycles j ops)
            = (fun j => cycles j
                + completed_cycles j (PoolOp.release (i.val : Int) usage_time_ms :: ops)) := by
          funext j
          rw [completed_cycles_cons]
          have hiff : ((i.val : Int) = (j.val : Int)) ↔ j = i := by
            constructor
            · intro he
              exact Fin.ext (by omega)
            · intro he
              rw [he]
          simp only [hiff]
          omega
        rw [← hfun]
        exact hfin
      · simp [hmem] at htr

theorem pool_trace_eq_run_pool (ops : List PoolOp) :
    ∀ (g : Globals) (held : List Int) (g1 : Globals) (held1 : List Int),
      pool_trace g held ops = some (g1, held1) → g1 = run_pool g ops := by
  induction ops with
  | nil =>
    intro g held g1 held1 htr
    simp only [pool_trace, Option.some.injEq, Prod.mk.injEq] at htr
    exact htr.1.symm
  | cons op ops ih =>
    intro g held g1 held1 htr
    cases op with
    | acquire user_name =>
      simp only [pool_trace] at htr
      exact ih _ _ g1 held1 htr
    | release resource_index usage_time_ms =>
      simp only [pool_trace] at htr
      by_cases hmem : resource_index ∈ held
      · simp only [hmem, if_true] at htr
        exact ih _ _ g1 held1 htr
      · simp [hmem] at htr

/-! ## Any sequence of calls on the pool -/

theorem acquire_resource_frame (user_name : List Char) (g : Globals) (j : Fin MAX_RESOURCES) :
    ((acquire_resource user_name g).1.resources j).resource_id = (g.resources j).resource_id ∧
    ((acquire_resource user_name g).2 ≠ (j.val : Int) →
      (acquire_resource user_name g).1.resources j = g.resources j) ∧
    ((g.resources j).in_use = true →
      (acquire_resource user_name g).1.resources j = g.resources j) := by
  rcases acquire_resource_cases user_name g with ⟨k, hk, _, heq⟩ | ⟨_, heq⟩
  · rw [heq]
    simp only [claim_slot_resources]
    by_cases hjk : j = k
    · subst hjk
      refine ⟨by simp, fun hne => absurd rfl hne, fun hin => ?_⟩
      rw [hk] at hin
      exact Bool.noConfusion hin
    · simp only [hjk, if_false]
      exact ⟨trivial, fun _ => trivial, fun _ => trivial⟩
  · rw [heq]
    exact ⟨rfl, fun _ => rfl, fun _ => rfl⟩

theorem release_resource_frame (resource_index : Int) (d : Nat) (g : Globals)
    (j : Fin MAX_RESOURCES) :
    ((release_resource resource_index d g).resources j).resource_id
      = (g.resources j).resource_id ∧
    (resource_index ≠ (j.val : Int) →
      (release_resource resource_index d g).resources j = g.resources j) := by
  rcases release_resource_cases resource_index d g with ⟨i, hi⟩ | hsame
  · rw [hi, release_resource_in_range]
    by_cases hji : j = i
    · subst hji
      exact ⟨by simp, fun hne => absurd rfl hne⟩
    · simp only [Function.update_noteq hji]
      exact ⟨trivial, fun _ => trivial⟩
  · rw [hsame]
    exact ⟨rfl, fun _ => rfl⟩

theorem run_pool_resource_id (ops : List PoolOp) :
    ∀ (g : Globals) (j : Fin MAX_RESOURCES),
      ((run_pool g ops).resources j).resource_id = (g.resources j).resource_id := by
  induction ops with
  | nil => intro g j; rfl
  | cons op ops ih =>
    intro g j
    show ((run_pool (PoolOp.apply g op) ops).resources j).resource_id = _
    rw [ih]
    cases op with
    | acquire user_name => exact (acquire_resource_frame user_name g j).1
    | release resource_index usage_time_ms =>
      exact (release_resource_frame resource_index usage_time_ms g j).1

theorem task_step_resource_id (k : TaskKind) (r : Nat) (pc : Pc) (g : Globals)
    (j : Fin MAX_RESOURCES) :
    (((task_step k r pc g).2).resources j).resource_id = (g.resources j).resource_id := by
  cases pc with
  | top => cases k <;> rfl
  | waiting =>
    cases k with
    | producer producer_id =>
      by_cases hadm : (producer_take g).2 = true
      · have h := (producer_take_admitted g hadm).2
        simp [task_step, hadm, h]
      · have hadm2 : (producer_take g).2 = false := by
          cases hb : (producer_take g).2
          · rfl
          · exact absurd hb hadm
        have h := (producer_take_timeout g hadm2).2.1
        simp [task_step, hadm2, h]
    | load_generator =>
      by_cases hadm : (loadgen_take g).2 = true
      · have h := (loadgen_take_admitted g hadm).2
        simp [task_step, hadm, h]
      · have hadm2 : (loadgen_take g).2 = false := by
          cases hb : (loadgen_take g).2
          · rfl
          · exact absurd hb hadm
        simp [task_step, hadm2, loadgen_take_timeout g hadm2]
  | admitted =>
    have h := (acquire_resource_frame k.name g j).1
    by_cases hidx : 0 ≤ (acquire_resource k.name g).2
    · simp [task_step, hidx, h]
    · simp [task_step, hidx, h]
  | holding res_idx use_ms => exact (release_resource_frame res_idx use_ms g j).1
  | giving => rfl

theorem run_resource_id (evs : List (Fin NUM_TASKS × Nat)) :
    ∀ (s : System) (j : Fin MAX_RESOURCES),
      ((run s evs).g.resources j).resource_id = (s.g.resources j).resource_id := by
  induction evs with
  | nil => intro s j; rfl
  | cons ev evs ih =>
    intro s j
    show ((run (system_step s ev) evs).g.resources j).resource_id = _
    rw [ih]
    exact task_step_resource_id _ _ _ _ j

theorem holder_cleared_apply (g : Globals) (op : PoolOp)
    (h : ∀ i : Fin MAX_RESOURCES, (g.resources i).in_use = false →
      c_str (g.resources i).current_user = []) :
    ∀ i : Fin MAX_RESOURCES, ((PoolOp.apply g op).resources i).in_use = false →
      c_str ((PoolOp.apply g op).resources i).current_user = [] := by
  intro i hfree
  cases op with
  | acquire user_name =>
    simp only [PoolOp.apply] at hfree ⊢
    rcases acquire_resource_cases user_name g with ⟨k, _, _, heq⟩ | ⟨_, heq⟩
    · rw [heq] at hfree ⊢
      simp only [claim_slot_resources] at hfree ⊢
      by_cases hik : i = k
      · simp [hik] at hfree
      · simp only [hik, if_false] at hfree ⊢
        exact h i hfree
    · rw [heq] at hfree ⊢
      exact h i hfree
  | release resource_index usage_time_ms =>
    simp only [PoolOp.apply] at hfree ⊢
    rcases release_resource_cases resource_index usage_time_ms g with ⟨k, hk⟩ | hsame
    · rw [hk, release_resource_in_range] at hfree ⊢
      by_cases hik : i = k
      · subst hik
        simp [c_str_set_zero]
      · simp only [Function.update_noteq hik] at hfree ⊢
        exact h i hfree
    · rw [hsame] at hfree ⊢
      exact h i hfree

theorem holder_cleared_run_pool (ops : List PoolOp) :
    ∀ g : Globals,
      (∀ i : Fin MAX_RESOURCES, (g.resources i).in_use = false →
        c_str (g.resources i).current_user = []) →
      ∀ i : Fin MAX_RESOURCES, ((run_pool g ops).resources i).in_use = false →
        c_str ((run_pool g ops).resources i).current_user = [] := by
  induction ops with
  | nil => intro g h; exact h
  | cons op ops ih =>
    intro g h
    exact ih (PoolOp.apply g op) (holder_cleared_apply g op h)

/-! ## The observers leave the globals alone -/

theorem monitor_slots_globals (fuel : Nat) :
    ∀ (i : Nat) (x : Globals × List Report), (monitor_slots fuel i x).1 = x.1 := by
  induction fuel with
  | zero => intro i x; rfl
  | succ n ih =>
    intro i x
    unfold monitor_slots
    split
    · rw [ih]
      split <;> rfl
    · rfl

theorem monitor_cells_globals (fuel : Nat) :
    ∀ (i : Nat) (x : Globals × List Report), (monitor_cells fuel i x).1 = x.1 := by
  induction fuel with
  | zero => intro i x; rfl
  | succ n ih =>
    intro i x
    unfold monitor_cells
    split
    · rw [ih]
      rfl
    · rfl

theorem statistics_slots_globals (fuel : Nat) :
    ∀ (i total_uses total_time : Nat) (x : Globals × List Report),
      (statistics_slots fuel i total_uses total_time x).1.1 = x.1 := by
  induction fuel with
  | zero => intro i total_uses total_time x; rfl
  | succ n ih =>
    intro i total_uses total_time x
    unfold statistics_slots
    split
    · rw [ih]
      rfl
    · rfl

theorem resource_monitor_pass_globals (g : Globals) : (resource_monitor_pass g).1 = g := by
  unfold resource_monitor_pass
  simp only [console_write, monitor_cells_globals, monitor_slots_globals]

theorem statistics_pass_globals (g : Globals) : (statistics_pass g).1 = g := by
  unfold statistics_pass
  simp only [console_write, statistics_slots_globals]
  split <;> rfl

/-! ## Claims about sequences of calls on the pool and about the observers -/

/-- C13. Gauge returns to zero: starting from the initial pool, after any sequence of
`acquire_resource` and `release_resource` calls in which only indices returned by
`acquire_resource` and not released since are released, and none is left unreleased,
`resources_in_use` is 0 and every slot has `in_use = false`. -/
theorem gauge_returns_to_zero (ops : List PoolOp) (g1 : Globals)
    (h : pool_trace globals_init [] ops = some (g1, [])) :
    g1 = run_pool globals_init ops ∧
    (run_pool globals_init ops).stats.resources_in_use = 0 ∧
    ∀ i : Fin MAX_RESOURCES, ((run_pool globals_init ops).resources i).in_use = false := by
  have hc := pool_consistent_trace ops globals_init [] _ g1 [] pool_consistent_init h
  have hrun := pool_trace_eq_run_pool ops globals_init [] g1 [] h
  have hfree : ∀ i : Fin MAX_RESOURCES, (g1.resources i).in_use = false := by
    intro i
    cases hb : (g1.resources i).in_use
    · rfl
    · have := hc.in_use_held i hb
      simp at this
  refine ⟨hrun, ?_, ?_⟩
  · rw [← hrun, hc.gauge]
    exact occupied_eq_zero_of_none g1 hfree
  · rw [← hrun]
    exact hfree

/-- Witness for C13: two claims, then the release of the two slots returned. -/
theorem gauge_returns_to_zero_witness :
    pool_trace globals_init []
        [.acquire loadgen_name, .acquire (producer_name 1), .release 0 500, .release 1 1007]
      = some (run_pool globals_init
        [.acquire loadgen_name, .acquire (producer_name 1), .release 0 500, .release 1 1007],
        []) ∧
    (run_pool globals_init [.acquire loadgen_name, .acquire (producer_name 1),
      .release 0 500, .release 1 1007]).stats.resources_in_use = 0 :=
  have h : pool_trace globals_init []
        [.acquire loadgen_name, .acquire (producer_name 1), .release 0 500, .release 1 1007]
      = some (run_pool globals_init
        [.acquire loadgen_name, .acquire (producer_name 1), .release 0 500, .release 1 1007],
        []) := rfl
  ⟨h, (gauge_returns_to_zero _ _ h).2.1⟩

/-- C14, as stated, fails: after the single call `acquire_resource` on the initial pool,
a well-formed sequence, slot 0 is held with `usage_count = 1` although no claim/release
cycle has been completed on it. -/
theorem usage_count_meaning_counterexample :
    (pool_trace globals_init [] [.acquire loadgen_name]).map Prod.snd = some [0] ∧
    ((run_pool globals_init [.acquire loadgen_name]).resources 0).in_use = true ∧
    ((run_pool globals_init [.acquire loadgen_name]).resources 0).usage_count = 1 ∧
    completed_cycles 0 [.acquire loadgen_name] = 0 := by
  decide

/-- C14, amended. Meaning of `usage_count`: in every state reached from the initial pool by
a well-formed sequence of calls (release only of a currently claimed index), each slot's
`usage_count` is, modulo `2 ^ 32`, the number of claims made on it: the number of completed
claim/release cycles on that slot, plus one while the slot is currently held. -/
theorem usage_count_meaning (ops : List PoolOp) (g1 : Globals) (held : List Int)
    (i : Fin MAX_RESOURCES) (h : pool_trace globals_init [] ops = some (g1, held)) :
    g1 = run_pool globals_init ops ∧
    (((run_pool globals_init ops).resources i).in_use = true ↔ (i.val : Int) ∈ held) ∧
    ((run_pool globals_init ops).resources i).usage_count
      = (completed_cycles i ops
          + (if ((run_pool globals_init ops).resources i).in_use = true then 1 else 0))
        % UINT32_MOD := by
  have hc := pool_consistent_trace ops globals_init [] _ g1 held pool_consistent_init h
  have hrun := pool_trace_eq_run_pool ops globals_init [] g1 held h
  refine ⟨hrun, ?_, ?_⟩
  · rw [← hrun]
    constructor
    · exact hc.in_use_held i
    · intro hmem
      obtain ⟨j, hj, hin⟩ := hc.held_in_use _ hmem
      have hji : j = i := Fin.ext (by omega)
      rw [← hji]
      exact hin
  · rw [← hrun]
    have hu := hc.usage i
    simpa using hu

/-- Witness for C14: one completed cycle on slot 0 and a second claim of it still held. -/
theorem usage_count_meaning_witness :
    pool_trace globals_init []
        [.acquire loadgen_name, .release 0 500, .acquire (producer_name 1)]
      = some (run_pool globals_init
        [.acquire loadgen_name, .release 0 500, .acquire (producer_name 1)], [0]) ∧
    ((run_pool globals_init
      [.acquire loadgen_name, .release 0 500, .acquire (producer_name 1)]).resources
        0).usage_count
      = (completed_cycles 0 [.acquire loadgen_name, .release 0 500,
            .acquire (producer_name 1)]
          + (if ((run_pool globals_init [.acquire loadgen_name, .release 0 500,
              .acquire (producer_name 1)]).resources 0).in_use = true then 1 else 0))
        % UINT32_MOD :=
  have h : pool_trace globals_init []
        [.acquire loadgen_name, .release 0 500, .acquire (producer_name 1)]
      = some (run_pool globals_init
        [.acquire loadgen_name, .release 0 500, .acquire (producer_name 1)], [0]) := rfl
  ⟨h, (usage_count_meaning _ _ _ 0 h).2.2⟩

/-- C15. Holder validity: in every state reached from the initial pool by any sequence of
`acquire_resource` and `release_resource` calls, every slot with `in_use = false` has an
empty `current_user`. -/
theorem holder_validity (ops : List PoolOp) (i : Fin MAX_RESOURCES)
    (h : ((run_pool globals_init ops).resources i).in_use = false) :
    c_str ((run_pool globals_init ops).resources i).current_user = [] := by
  refine holder_cleared_run_pool ops globals_init ?_ i h
  intro j _
  show c_str (List.replicate 20 NUL) = []
  decide

/-- Witness for C15: slot 0 after a claim, a release, and a repeated release. -/
theorem holder_validity_witness :
    ((run_pool globals_init
      [.acquire loadgen_name, .release 0 500, .release 0 1]).resources 0).in_use = false ∧
    c_str ((run_pool globals_init
      [.acquire loadgen_name, .release 0 500, .release 0 1]).resources 0).current_user = [] :=
  ⟨by decide, holder_validity [.acquire loadgen_name, .release 0 500, .release 0 1] 0
    (by decide)⟩

/-- C16. Observers are read-only: for every state, one report pass of
`resource_monitor_task` and one report pass of `statistics_task` leave every slot of the
pool, the four statistics counters and the free-ticket count (indeed all globals) exactly
as they were. -/
theorem observers_read_only (g : Globals) :
    (resource_monitor_pass g).1 = g ∧ (statistics_pass g).1 = g ∧
    (∀ i : Fin MAX_RESOURCES,
      (resource_monitor_pass g).1.resources i = g.resources i ∧
      (statistics_pass g).1.resources i = g.resources i) ∧
    (resource_monitor_pass g).1.stats = g.stats ∧ (statistics_pass g).1.stats = g.stats ∧
    (resource_monitor_pass g).1.xCountingSemaphore = g.xCountingSemaphore ∧
    (statistics_pass g).1.xCountingSemaphore = g.xCountingSemaphore := by
  rw [resource_monitor_pass_globals, statistics_pass_globals]
  exact ⟨rfl, rfl, fun _ => ⟨rfl, rfl⟩, rfl, rfl, rfl, rfl⟩

/-- C17. Frame of claim and release: for every pool state, `acquire_resource` returning `i`
changes no field of any slot `j` other than `i`, and `release_resource(i, d)` changes no
field of any slot `j` other than `i` whether or not slot `i` is held; neither ever changes
a slot's `resource_id`, and in every reachable state (by calls on the pool or by a schedule
of the tasks) slot `m` has `resource_id = m + 1`. -/
theorem claim_release_frame (user_name : List Char) (g : Globals) (i j : Fin MAX_RESOURCES)
    (d : Nat) (ops : List PoolOp) (evs : List (Fin NUM_TASKS × Nat)) (hne : j ≠ i) :
    ((acquire_resource user_name g).2 = (i.val : Int) →
      (acquire_resource user_name g).1.resources j = g.resources j) ∧
    (release_resource (i.val : Int) d g).resources j = g.resources j ∧
    (∀ m : Fin MAX_RESOURCES,
      ((acquire_resource user_name g).1.resources m).resource_id
        = (g.resources m).resource_id) ∧
    (∀ (m : Fin MAX_RESOURCES) (resource_index : Int),
      ((release_resource resource_index d g).resources m).resource_id
        = (g.resources m).resource_id) ∧
    (∀ m : Fin MAX_RESOURCES,
      ((run_pool globals_init ops).resources m).resource_id = (m.val : Int) + 1) ∧
    (∀ m : Fin MAX_RESOURCES,
      ((run system_init evs).g.resources m).resource_id = (m.val : Int) + 1) := by
  have hij : (i.val : Int) ≠ (j.val : Int) := by
    intro he
    exact hne (Fin.ext (by omega))
  refine ⟨?_, ?_, ?_, ?_, ?_, ?_⟩
  · intro hret
    exact (acquire_resource_frame user_name g j).2.1 (by rw [hret]; exact hij)
  · exact (release_resource_frame (i.val : Int) d g j).2 hij
  · exact fun m => (acquire_resource_frame user_name g m).1
  · exact fun m resource_index => (release_resource_frame resource_index d g m).1
  · intro m
    rw [run_pool_resource_id]
    rfl
  · intro m
    rw [run_resource_id]
    rfl

/-- Witness for C17: on the pool with all five slots held, releasing the held slot 2 frees
it and leaves the held slot 0 as it was; on the pool whose slot 0 is held, a claim returns
1 and leaves slot 0 as it was. -/
theorem claim_release_frame_witness :
    (0 : Fin MAX_RESOURCES) ≠ 2 ∧
    (pool_full.resources 2).in_use = true ∧
    ((release_resource ((2 : Fin MAX_RESOURCES).val : Int) 500 pool_full).resources 2).in_use
      = false ∧
    (release_resource ((2 : Fin MAX_RESOURCES).val : Int) 500 pool_full).resources 0
      = pool_full.resources 0 ∧
    (acquire_resource loadgen_name pool_first_taken).2 = ((1 : Fin MAX_RESOURCES).val : Int) ∧
    (acquire_resource loadgen_name pool_first_taken).1.resources 0
      = pool_first_taken.resources 0 :=
  ⟨by decide, by decide, by decide,
    (claim_release_frame loadgen_name pool_full 2 0 500 [] [] (by decide)).2.1,
    by decide,
    (claim_release_frame loadgen_name pool_first_taken 1 0 500 [] [] (by decide)).1
      (by decide)⟩

/-! ## The events of the load generator -/

/-- With nothing else running, the attempt with its events is the attempt of
`load_generator_attempt`. -/
theorem attempt_events_globals (g : Globals) (log : List LoadGenEvent) :
    (load_generator_attempt_events (fun _ g1 => g1) (g, log)).1 = load_generator_attempt g := by
  by_cases hadm : (loadgen_take g).2 = true
  · by_cases hidx : 0 ≤ (acquire_resource loadgen_name (loadgen_take g).1).2
    · simp [load_generator_attempt_events, load_generator_attempt, vTaskDelay, hadm, hidx]
    · simp [load_generator_attempt_events, load_generator_attempt, vTaskDelay, hadm, hidx]
  · simp [load_generator_attempt_events, load_generator_attempt, vTaskDelay, hadm]

theorem holdings_run_delay (ms : Nat) (st : Bool × Option Int) :
    holdings_run st [.delay ms] = some st := rfl

theorem gauge_le_occupied_apply (g : Globals) (op : PoolOp)
    (h : g.stats.resources_in_use ≤ occupied g) :
    (PoolOp.apply g op).stats.resources_in_use ≤ occupied (PoolOp.apply g op) := by
  cases op with
  | acquire user_name =>
    simp only [PoolOp.apply]
    rcases acquire_resource_cases user_name g with ⟨k, hk, _, heq⟩ | ⟨_, heq⟩
    · rw [heq]
      have h1 := occupied_update g (claim_slot user_name k g) k _ rfl
      have h2 : occupied (claim_slot user_name k g) ≤ 5 := occupied_le _
      simp only [hk, Bool.false_eq_true, if_false, if_true] at h1
      show (g.stats.resources_in_use + 1) % UINT32_MOD ≤ occupied (claim_slot user_name k g)
      rw [Nat.mod_eq_of_lt (by simp only [UINT32_MOD]; omega)]
      omega
    · rw [heq]
      exact h
  | release resource_index usage_time_ms =>
    simp only [PoolOp.apply]
    rcases release_resource_cases resource_index usage_time_ms g with ⟨i, hi⟩ | hsame
    · have h1 := occupied_update g (release_resource (i.val : Int) usage_time_ms g) i _
        (by rw [release_resource_in_range])
      have h4 : (release_resource (i.val : Int) usage_time_ms g).stats.resources_in_use
          = if 0 < g.stats.resources_in_use then g.stats.resources_in_use - 1
            else g.stats.resources_in_use := by
        rw [release_resource_in_range]
      rw [hi, h4]
      simp only [Bool.false_eq_true, if_false] at h1
      split at h1 <;> split <;> omega
    · rw [hsame]
      exact h

theorem gauge_le_occupied_run_pool (ops : List PoolOp) :
    ∀ g : Globals, g.stats.resources_in_use ≤ occupied g →
      (run_pool g ops).stats.resources_in_use ≤ occupied (run_pool g ops) := by
  induction ops with
  | nil => intro g h; exact h
  | cons op ops ih =>
    intro g h
    exact ih (PoolOp.apply g op) (gauge_le_occupied_apply g op h)

/-! ## The holder field after a claim -/

theorem strncpy_set_length (dst src : List Char) (n : Nat) (hlen : dst.length = n + 1) :
    ((strncpy dst src n).set n NUL).length = n + 1 := by
  have hb : ((c_str src).take n).length ≤ n := List.length_take_le _ _
  simp only [strncpy, List.length_set, List.length_append, List.length_replicate,
    List.length_drop, hlen]
  omega

theorem strncpy_set_shape (dst src : List Char) (n : Nat) (hlen : dst.length = n + 1) :
    ∃ rest : List Char, (strncpy dst src n).set n NUL = (c_str src).take n ++ NUL :: rest := by
  have hb : ((c_str src).take n).length ≤ n := List.length_take_le _ _
  have htail : ∀ (m : Nat) (d : List Char), d ≠ [] →
      ∃ rest : List Char, (List.replicate m NUL ++ d).set m NUL = NUL :: rest := by
    intro m d hd
    cases m with
    | zero =>
      cases d with
      | nil => exact absurd rfl hd
      | cons x xs => exact ⟨xs, by simp⟩
    | succ m => exact ⟨(List.replicate m NUL ++ d).set m NUL, by simp [List.replicate_succ]⟩
  have hdrop : dst.drop n ≠ [] := by
    intro hnil
    have := congrArg List.length hnil
    simp only [List.length_drop, hlen, List.length_nil] at this
    omega
  obtain ⟨rest, hrest⟩ := htail (n - ((c_str src).take n).length) (dst.drop n) hdrop
  refine ⟨rest, ?_⟩
  unfold strncpy
  simp only [List.append_assoc]
  rw [List.set_append_right _ _ hb, hrest]

/-! ## Further claims about the pool -/

/-- C22. Hold-duration range: for every value `r` of the random source, the hold duration
`1000 + r mod 3000` lies between 1000 and 4000 ms and the backoff `1500 + r mod 2500`
between 1500 and 4000 ms, and neither computation overflows 32 bits (the 32-bit result is
the exact sum). -/
theorem hold_duration_range (r : Nat) :
    producer_use_ms r = 1000 + r % 3000 ∧ 1000 + r % 3000 < UINT32_MOD ∧
    1000 ≤ producer_use_ms r ∧ producer_use_ms r ≤ 4000 ∧
    producer_backoff_ms r = 1500 + r % 2500 ∧ 1500 + r % 2500 < UINT32_MOD ∧
    1500 ≤ producer_backoff_ms r ∧ producer_backoff_ms r ≤ 4000 := by
  have h1 : r % 3000 < 3000 := Nat.mod_lt _ (by decide)
  have h2 : r % 2500 < 2500 := Nat.mod_lt _ (by decide)
  have e1 : producer_use_ms r = 1000 + r % 3000 := by
    unfold producer_use_ms
    exact Nat.mod_eq_of_lt (by simp only [UINT32_MOD]; omega)
  have e2 : producer_backoff_ms r = 1500 + r % 2500 := by
    unfold producer_backoff_ms
    exact Nat.mod_eq_of_lt (by simp only [UINT32_MOD]; omega)
  refine ⟨e1, ?_, ?_, ?_, e2, ?_, ?_, ?_⟩
  · simp only [UINT32_MOD]
    omega
  · rw [e1]
    omega
  · rw [e1]
    omega
  · simp only [UINT32_MOD]
    omega
  · rw [e2]
    omega
  · rw [e2]
    omega

/-- C24. Gauge never over-counts: after any sequence of `acquire_resource` and
`release_resource` calls on the initial pool `resources_in_use` is at most the number of
slots in use; after a well-formed sequence the two are equal; and after two claims, a
release of slot 0 and a second release of the then free slot 0, the gauge (0) is strictly
smaller than the occupancy (1). -/
theorem gauge_never_over_counts (ops ops_wf : List PoolOp) (g1 : Globals) (held : List Int)
    (h : pool_trace globals_init [] ops_wf = some (g1, held)) :
    (run_pool globals_init ops).stats.resources_in_use ≤ occupied (run_pool globals_init ops) ∧
    (run_pool globals_init ops_wf).stats.resources_in_use
      = occupied (run_pool globals_init ops_wf) ∧
    ((run_pool globals_init (ops_double_release.take 3)).resources 0).in_use = false ∧
    (run_pool globals_init ops_double_release).stats.resources_in_use
      < occupied (run_pool globals_init ops_double_release) := by
  refine ⟨gauge_le_occupied_run_pool ops globals_init (by decide), ?_, by decide, by decide⟩
  have hc := pool_consistent_trace ops_wf globals_init [] _ g1 held pool_consistent_init h
  rw [← pool_trace_eq_run_pool ops_wf globals_init [] g1 held h]
  exact hc.gauge

/-- Witness for C24: a claim and the release of the slot it returned. -/
theorem gauge_never_over_counts_witness :
    pool_trace globals_init [] [.acquire loadgen_name, .release 0 500]
      = some (run_pool globals_init [.acquire loadgen_name, .release 0 500], []) ∧
    (run_pool globals_init [.acquire loadgen_name, .release 0 500]).stats.resources_in_use
      = occupied (run_pool globals_init [.acquire loadgen_name, .release 0 500]) :=
  have h : pool_trace globals_init [] [.acquire loadgen_name, .release 0 500]
      = some (run_pool globals_init [.acquire loadgen_name, .release 0 500], []) := rfl
  ⟨h, (gauge_never_over_counts [] _ _ _ h).2.1⟩

/-- C25. Failed claim is atomic: on every pool in which all 5 slots are in use,
`acquire_resource` returns -1 and leaves every slot, the gauge and all other globals
unchanged. -/
theorem failed_claim_atomic (user_name : List Char) (g : Globals)
    (h : ∀ i : Fin MAX_RESOURCES, (g.resources i).in_use = true) :
    (acquire_resource user_name g).2 = -1 ∧
    (acquire_resource user_name g).1 = g ∧
    (∀ i : Fin MAX_RESOURCES, (acquire_resource user_name g).1.resources i = g.resources i) ∧
    (acquire_resource user_name g).1.stats.resources_in_use = g.stats.resources_in_use := by
  rcases acquire_resource_cases user_name g with ⟨k, hk, _, _⟩ | ⟨_, heq⟩
  · rw [h k] at hk
    exact Bool.noConfusion hk
  · rw [heq]
    exact ⟨rfl, rfl, fun _ => rfl, rfl⟩

/-- Witness for C25: a sixth claim on the pool with all five slots claimed. -/
theorem failed_claim_atomic_witness :
    (∀ i : Fin MAX_RESOURCES, (pool_full.resources i).in_use = true) ∧
    (acquire_resource loadgen_name pool_full).2 = -1 ∧
    (acquire_resource loadgen_name pool_full).1 = pool_full :=
  have h := failed_claim_atomic loadgen_name pool_full (by decide)
  ⟨by decide, h.1, h.2.1⟩

/-- C26. Out-of-range release is a no-op: for every index `i < 0` or `i >= 5` (in
particular -1) and every duration, `release_resource` leaves every slot, every statistics
counter and all other globals unchanged. -/
theorem release_out_of_range (resource_index : Int) (d : Nat) (g : Globals)
    (h : resource_index < 0 ∨ (MAX_RESOURCES : Int) ≤ resource_index) :
    release_resource resource_index d g = g ∧
    (∀ i : Fin MAX_RESOURCES, (release_resource resource_index d g).resources i
      = g.resources i) ∧
    (release_resource resource_index d g).stats = g.stats ∧
    release_resource (-1) d g = g := by
  have hno : ∀ idx : Int, (idx < 0 ∨ (MAX_RESOURCES : Int) ≤ idx) →
      release_resource idx d g = g := by
    intro idx hidx
    have hn : ¬ (0 ≤ idx ∧ idx < (MAX_RESOURCES : Int)) := by omega
    simp only [release_resource, hn, dite_false]
  rw [hno resource_index h]
  exact ⟨rfl, fun _ => rfl, rfl, hno (-1) (Or.inl (by decide))⟩

/-- Witness for C26: releases with index 5 and with index -1 on the pool whose slot 0 is
taken. -/
theorem release_out_of_range_witness :
    ((5 : Int) < 0 ∨ (MAX_RESOURCES : Int) ≤ 5) ∧
    release_resource 5 500 pool_first_taken = pool_first_taken ∧
    release_resource (-1) 500 pool_first_taken = pool_first_taken :=
  have h := release_out_of_range 5 500 pool_first_taken (Or.inr (by decide))
  ⟨Or.inr (by decide), h.1, h.2.2.2⟩

/-- C29. Holder name is bounded: for every holder name, after `acquire_resource` returns
slot `i` (whose field has its 20 bytes), the stored `current_user` still has 20 bytes and
consists of the first `min(len, 19)` characters of the name, then a terminator, then
whatever follows; so the string it holds is that prefix of the name. -/
theorem holder_name_bounded (user_name : List Char) (g : Globals) (i : Fin MAX_RESOURCES)
    (hret : (acquire_resource user_name g).2 = (i.val : Int))
    (hbuf : (g.resources i).current_user.length = 20) :
    ((acquire_resource user_name g).1.resources i).current_user.length = 20 ∧
    (∃ rest : List Char, ((acquire_resource user_name g).1.resources i).current_user
      = (c_str user_name).take 19 ++ NUL :: rest) ∧
    ((c_str user_name).take 19).length = min (c_str user_name).length 19 ∧
    c_str ((acquire_resource user_name g).1.resources i).current_user
      = (c_str user_name).take 19 ∧
    NUL ∈ ((acquire_resource user_name g).1.resources i).current_user := by
  rcases acquire_resource_cases user_name g with ⟨k, _, _, heq⟩ | ⟨_, heq⟩
  · rw [heq] at hret
    have hki : k = i := Fin.ext (by simpa using hret)
    subst hki
    rw [heq]
    simp only [claim_slot_resources, if_true]
    obtain ⟨rest, hrest⟩ := strncpy_set_shape (g.resources k).current_user user_name 19 hbuf
    refine ⟨strncpy_set_length _ _ 19 hbuf, ⟨rest, hrest⟩, ?_, c_str_strncpy_set _ _ 19, ?_⟩
    · rw [List.length_take, Nat.min_comm]
    · rw [hrest]
      simp
  · rw [heq] at hret
    simp only at hret
    omega

/-- Witness for C29: a claim under a 20-character name on the fresh pool stores its first
19 characters. -/
theorem holder_name_bounded_witness :
    (acquire_resource long_name globals_init).2 = ((0 : Fin MAX_RESOURCES).val : Int) ∧
    (globals_init.resources 0).current_user.length = 20 ∧
    ((acquire_resource long_name globals_init).1.resources 0).current_user.length = 20 ∧
    c_str ((acquire_resource long_name globals_init).1.resources 0).current_user
      = (c_str long_name).take 19 :=
  have h := holder_name_bounded long_name globals_init 0 (by decide) (by decide)
  ⟨by decide, by decide, h.1, h.2.2.2.1⟩

end Producers

namespace TimeSharing

/-! ## One call of `manual_scheduler` -/

theorem manual_scheduler_step (start_time end_time : Nat) (s : State) :
    (manual_scheduler start_time end_time s).task_counter
      = (s.task_counter + 1) % UINT32_MOD ∧
    (manual_scheduler start_time end_time s).context_switches
      = (s.context_switches + 1) % UINT32_MOD ∧
    ∃ count : Nat, (manual_scheduler start_time end_time s).console
      = s.console ++ [(task_numbered (s.task_counter % TASK_COUNT), count)] := by
  have hlt : s.task_counter % TASK_COUNT < 4 := Nat.mod_lt _ (by decide)
  have hcases : s.task_counter % TASK_COUNT = 0 ∨ s.task_counter % TASK_COUNT = 1 ∨
      s.task_counter % TASK_COUNT = 2 ∨ s.task_counter % TASK_COUNT = 3 := by omega
  rcases hcases with h | h | h | h
  · refine ⟨?_, ?_, s.sensor_count, ?_⟩ <;>
      simp [manual_scheduler, h, task_id_t.value, simulate_sensor_task, task_numbered]
  · refine ⟨?_, ?_, s.process_count, ?_⟩ <;>
      simp [manual_scheduler, h, task_id_t.value, simulate_processing_task, task_numbered]
  · refine ⟨?_, ?_, s.actuator_count, ?_⟩ <;>
      simp [manual_scheduler, h, task_id_t.value, simulate_actuator_task, task_numbered]
  · refine ⟨?_, ?_, s.display_count, ?_⟩ <;>
      simp [manual_scheduler, h, task_id_t.value, simulate_display_task, task_numbered]

theorem run_scheduler_snoc (s : State) (times : List (Nat × Nat)) (t : Nat × Nat) :
    run_scheduler s (times ++ [t]) = manual_scheduler t.1 t.2 (run_scheduler s times) := by
  simp [run_scheduler, List.foldl_append]

/-- The counters and the console after any number of calls. -/
theorem run_scheduler_trace (s : State) (times : List (Nat × Nat))
    (htc : s.task_counter < UINT32_MOD) (hcs : s.context_switches < UINT32_MOD) :
    (run_scheduler s times).task_counter = (s.task_counter + times.length) % UINT32_MOD ∧
    (run_scheduler s times).context_switches
      = (s.context_switches + times.length) % UINT32_MOD ∧
    ∃ lines : List (task_id_t × Nat),
      (run_scheduler s times).console = s.console ++ lines ∧
      lines.map Prod.fst
        = (List.range times.length).map
            (fun k => task_numbered ((s.task_counter + k) % TASK_COUNT)) := by
  induction times using List.reverseRecOn with
  | nil =>
    refine ⟨?_, ?_, [], by simp [run_scheduler], by simp⟩
    · exact (Nat.mod_eq_of_lt htc).symm
    · exact (Nat.mod_eq_of_lt hcs).symm
  | append_singleton ts t ih =>
    obtain ⟨htc1, hcs1, lines, hcon, hmap⟩ := ih
    obtain ⟨h1, h2, count, h3⟩ := manual_scheduler_step t.1 t.2 (run_scheduler s ts)
    rw [run_scheduler_snoc]
    refine ⟨?_, ?_, lines ++ [(task_numbered ((run_scheduler s ts).task_counter % TASK_COUNT),
      count)], ?_, ?_⟩
    · rw [h1, htc1]
      simp only [List.length_append, List.length_singleton, UINT32_MOD]
      omega
    · rw [h2, hcs1]
      simp only [List.length_append, List.length_singleton, UINT32_MOD]
      omega
    · rw [h3, hcon, List.append_assoc]
    · rw [List.map_append, hmap, htc1]
      simp only [List.length_append, List.length_singleton, List.range_succ, List.map_append,
        List.map_cons, List.map_nil]
      have hmod : (s.task_counter + ts.length) % UINT32_MOD % TASK_COUNT
          = (s.task_counter + ts.length) % TASK_COUNT := by
        simp only [UINT32_MOD, TASK_COUNT]
        omega
      rw [hmod]

/-! ## Claim about the round-robin dispatch -/

/-- C20. Round-robin dispatch: starting from `task_counter = 0`, the `k`-th call of
`manual_scheduler` (`k = 0, 1, 2, ...`, here `k = times.length`, for every call number the
32-bit counters can hold) runs exactly one simulated task, the one numbered `k mod 4` in
the fixed order sensor, processing, actuator, display, and increases `task_counter` and
`context_switches` by exactly 1 each; hence any 4 consecutive calls run each of the four
tasks exactly once, in that cyclic order. The program resets both counters to 0 before
each of its loops of 40 and of 50 calls. -/
theorem round_robin_dispatch (s : State) (times : List (Nat × Nat)) (start_time end_time : Nat)
    (four : List (Nat × Nat)) (h0 : s.task_counter = 0)
    (hcs : s.context_switches + times.length + 1 < UINT32_MOD) (h4 : four.length = 4) :
    tasks_run s.console.length (run_scheduler s times)
      = (List.range times.length).map (fun n => task_numbered (n % TASK_COUNT)) ∧
    (run_scheduler s times).task_counter = times.length ∧
    (run_scheduler s times).context_switches = s.context_switches + times.length ∧
    tasks_run (run_scheduler s times).console.length
        (manual_scheduler start_time end_time (run_scheduler s times))
      = [task_numbered (times.length % TASK_COUNT)] ∧
    (manual_scheduler start_time end_time (run_scheduler s times)).task_counter
      = (run_scheduler s times).task_counter + 1 ∧
    (manual_scheduler start_time end_time (run_scheduler s times)).context_switches
      = (run_scheduler s times).context_switches + 1 ∧
    tasks_run (run_scheduler s times).console.length
        (run_scheduler (run_scheduler s times) four)
      = [task_numbered (times.length % TASK_COUNT),
          task_numbered ((times.length + 1) % TASK_COUNT),
          task_numbered ((times.length + 2) % TASK_COUNT),
          task_numbered ((times.length + 3) % TASK_COUNT)] ∧
    List.Perm
      (tasks_run (run_scheduler s times).console.length
        (run_scheduler (run_scheduler s times) four))
      [.TASK_SENSOR, .TASK_PROCESS, .TASK_ACTUATOR, .TASK_DISPLAY] ∧
    (∀ n : Nat,
      (task_numbered ((n + 1) % TASK_COUNT)).value
        = ((task_numbered (n % TASK_COUNT)).value + 1) % TASK_COUNT) ∧
    (∀ s0 : State,
      (reset_metrics s0).task_counter = 0 ∧ (reset_metrics s0).context_switches = 0) := by
  have hcs0 : s.context_switches < UINT32_MOD := by omega
  obtain ⟨h1, h2, lines, hcon, hmap⟩ := run_scheduler_trace s times (by rw [h0]; decide) hcs0
  obtain ⟨h3, h4c, count, h5⟩ :=
    manual_scheduler_step start_time end_time (run_scheduler s times)
  have htc : (run_scheduler s times).task_counter = times.length := by
    rw [h1, h0, Nat.zero_add]
    exact Nat.mod_eq_of_lt (by omega)
  have hsw : (run_scheduler s times).context_switches = s.context_switches + times.length := by
    rw [h2]
    exact Nat.mod_eq_of_lt (by omega)
  obtain ⟨_, _, lines4, hcon4, hmap4⟩ := run_scheduler_trace (run_scheduler s times) four
    (by rw [htc]; omega) (by rw [hsw]; omega)
  have hcyc : ∀ n : Nat, n % TASK_COUNT = 0 ∨ n % TASK_COUNT = 1 ∨ n % TASK_COUNT = 2 ∨
      n % TASK_COUNT = 3 := by
    intro n
    simp only [TASK_COUNT]
    omega
  have hfour : tasks_run (run_scheduler s times).console.length
        (run_scheduler (run_scheduler s times) four)
      = [task_numbered (times.length % TASK_COUNT),
          task_numbered ((times.length + 1) % TASK_COUNT),
          task_numbered ((times.length + 2) % TASK_COUNT),
          task_numbered ((times.length + 3) % TASK_COUNT)] := by
    unfold tasks_run
    rw [hcon4, List.drop_left, hmap4, h4, htc]
    rfl
  refine ⟨?_, htc, hsw, ?_, ?_, ?_, hfour, ?_, ?_, fun _ => ⟨rfl, rfl⟩⟩
  · unfold tasks_run
    rw [hcon, List.drop_left, hmap]
    simp only [h0, Nat.zero_add]
  · unfold tasks_run
    rw [h5, List.drop_left, htc]
    rfl
  · rw [h3]
    exact Nat.mod_eq_of_lt (by rw [htc]; omega)
  · rw [h4c]
    exact Nat.mod_eq_of_lt (by rw [hsw]; omega)
  · rw [hfour]
    rcases hcyc times.length with h | h | h | h
    · have e1 : (times.length + 1) % TASK_COUNT = 1 := by simp only [TASK_COUNT] at h ⊢; omega
      have e2 : (times.length + 2) % TASK_COUNT = 2 := by simp only [TASK_COUNT] at h ⊢; omega
      have e3 : (times.length + 3) % TASK_COUNT = 3 := by simp only [TASK_COUNT] at h ⊢; omega
      rw [h, e1, e2, e3]
      decide
    · have e1 : (times.length + 1) % TASK_COUNT = 2 := by simp only [TASK_COUNT] at h ⊢; omega
      have e2 : (times.length + 2) % TASK_COUNT = 3 := by simp only [TASK_COUNT] at h ⊢; omega
      have e3 : (times.length + 3) % TASK_COUNT = 0 := by simp only [TASK_COUNT] at h ⊢; omega
      rw [h, e1, e2, e3]
      decide
    · have e1 : (times.length + 1) % TASK_COUNT = 3 := by simp only [TASK_COUNT] at h ⊢; omega
      have e2 : (times.length + 2) % TASK_COUNT = 0 := by simp only [TASK_COUNT] at h ⊢; omega
      have e3 : (times.length + 3) % TASK_COUNT = 1 := by simp only [TASK_COUNT] at h ⊢; omega
      rw [h, e1, e2, e3]
      decide
    · have e1 : (times.length + 1) % TASK_COUNT = 0 := by simp only [TASK_COUNT] at h ⊢; omega
      have e2 : (times.length + 2) % TASK_COUNT = 1 := by simp only [TASK_COUNT] at h ⊢; omega
      have e3 : (times.length + 3) % TASK_COUNT = 2 := by simp only [TASK_COUNT] at h ⊢; omega
      rw [h, e1, e2, e3]
      decide
  · intro n
    rcases hcyc n with h | h | h | h
    · have e1 : (n + 1) % TASK_COUNT = 1 := by simp only [TASK_COUNT] at h ⊢; omega
      rw [h, e1]
      decide
    · have e1 : (n + 1) % TASK_COUNT = 2 := by simp only [TASK_COUNT] at h ⊢; omega
      rw [h, e1]
      decide
    · have e1 : (n + 1) % TASK_COUNT = 3 := by simp only [TASK_COUNT] at h ⊢; omega
      rw [h, e1]
      decide
    · have e1 : (n + 1) % TASK_COUNT = 0 := by simp only [TASK_COUNT] at h ⊢; omega
      rw [h, e1]
      decide

/-- Witness for C20: after the reset of the metrics, five calls run sensor, processing,
actuator, display, sensor and leave `task_counter = context_switches = 5`; the next four
calls run processing, actuator, display, sensor. -/
theorem round_robin_dispatch_witness :
    (reset_metrics state_init).task_counter = 0 ∧
    (reset_metrics state_init).context_switches
      + [((0 : Nat), (5 : Nat)), (7, 9), (1, 2), (3, 4), (5, 6)].length + 1 < UINT32_MOD ∧
    tasks_run (reset_metrics state_init).console.length
        (run_scheduler (reset_metrics state_init) [(0, 5), (7, 9), (1, 2), (3, 4), (5, 6)])
      = [.TASK_SENSOR, .TASK_PROCESS, .TASK_ACTUATOR, .TASK_DISPLAY, .TASK_SENSOR] ∧
    (run_scheduler (reset_metrics state_init)
      [(0, 5), (7, 9), (1, 2), (3, 4), (5, 6)]).task_counter = 5 ∧
    (run_scheduler (reset_metrics state_init)
      [(0, 5), (7, 9), (1, 2), (3, 4), (5, 6)]).context_switches = 5 ∧
    tasks_run
        (run_scheduler (reset_metrics state_init)
          [(0, 5), (7, 9), (1, 2), (3, 4), (5, 6)]).console.length
        (run_scheduler
          (run_scheduler (reset_metrics state_init) [(0, 5), (7, 9), (1, 2), (3, 4), (5, 6)])
          [(6, 7), (8, 9), (10, 11), (12, 13)])
      = [.TASK_PROCESS, .TASK_ACTUATOR, .TASK_DISPLAY, .TASK_SENSOR] :=
  have h := round_robin_dispatch (reset_metrics state_init)
    [(0, 5), (7, 9), (1, 2), (3, 4), (5, 6)] 0 0 [(6, 7), (8, 9), (10, 11), (12, 13)]
    rfl (by decide) rfl
  ⟨rfl, by decide, h.1.trans (by decide), h.2.1, h.2.2.1,
    h.2.2.2.2.2.2.1.trans (by decide)⟩

end TimeSharing

namespace StackMonitor

/-! ## The reporting loops and the status LEDs -/

theorem report_loop_eq_foldl (word_size : Nat) (handles : Nat → Option Nat) (count : Nat)
    (fuel : Nat) :
    ∀ (i : Nat) (flags : Bool × Bool), i + fuel = count →
      report_loop word_size handles count fuel i flags
        = (((List.range' i fuel).filterMap handles).map (rem_bytes word_size)).foldl
            (fun f b => check_reading b f) flags := by
  induction fuel with
  | zero => intro i flags _; rfl
  | succ n ih =>
    intro i flags hi
    have hlt : i < count := by omega
    simp only [report_loop, hlt, if_true, List.range'_succ, List.filterMap_cons]
    rw [ih (i + 1) _ (by omega)]
    cases handles i with
    | none => rfl
    | some rem_words => rfl

theorem report_loop_readings (word_size : Nat) (handles : Nat → Option Nat) (count : Nat)
    (flags : Bool × Bool) :
    report_loop word_size handles count count 0 flags
      = (readings word_size handles count).foldl (fun f b => check_reading b f) flags := by
  rw [report_loop_eq_foldl word_size handles count count 0 flags (by omega)]
  unfold readings
  rw [List.range_eq_range']

theorem flags_after (rs : List Nat) :
    ∀ flags : Bool × Bool,
      ((rs.foldl (fun f b => check_reading b f) flags).2 = true ↔
        flags.2 = true ∨ ∃ r ∈ rs, r < STACK_CRITICAL_THRESHOLD) ∧
      ((rs.foldl (fun f b => check_reading b f) flags).1 = true ↔
        flags.1 = true ∨
          ∃ r ∈ rs, STACK_CRITICAL_THRESHOLD ≤ r ∧ r < STACK_WARNING_THRESHOLD) := by
  induction rs with
  | nil => intro flags; simp
  | cons b rs ih =>
    intro flags
    obtain ⟨h2, h1⟩ := ih (check_reading b flags)
    simp only [List.foldl_cons]
    rw [h2, h1]
    unfold check_reading
    by_cases hc : b < STACK_CRITICAL_THRESHOLD
    · simp only [hc, if_true, List.mem_cons, exists_eq_or_imp, true_or, or_true, true_iff,
        iff_true]
      constructor
      · trivial
      · have : ¬ (STACK_CRITICAL_THRESHOLD ≤ b ∧ b < STACK_WARNING_THRESHOLD) := by omega
        simp only [this, false_or]
    · by_cases hw : b < STACK_WARNING_THRESHOLD
      · have hcw : STACK_CRITICAL_THRESHOLD ≤ b ∧ b < STACK_WARNING_THRESHOLD := by omega
        simp [hc, hw, hcw]
      · have hcw : ¬ (STACK_CRITICAL_THRESHOLD ≤ b ∧ b < STACK_WARNING_THRESHOLD) := by omega
        simp [hc, hw, hcw]

theorem blink_warning_off (n : Nat) :
    ∀ gpio : Nat → Nat, blink_warning (n + 1) gpio LED_WARNING = 0 ∧
      blink_warning (n + 1) gpio LED_OK = gpio LED_OK := by
  induction n with
  | zero =>
    intro gpio
    simp [blink_warning, gpio_set_level, Function.update]
  | succ n ih =>
    intro gpio
    have h := ih (gpio_set_level LED_WARNING 0 (gpio_set_level LED_WARNING 1 gpio))
    rw [blink_warning]
    refine ⟨h.1, ?_⟩
    rw [h.2]
    simp [gpio_set_level, Function.update]

/-- The LEDs after the status branch, for the flags computed from the readings. -/
theorem led_status_indication (blinks : Nat) (rs : List Nat) (gpio : Nat → Nat) :
    StatusIndication rs
      (led_status (blinks + 1) (rs.foldl (fun f b => check_reading b f) (false, false))
        gpio) := by
  obtain ⟨hcrit, hwarn⟩ := flags_after rs (false, false)
  simp only [Bool.false_eq_true, false_or] at hcrit hwarn
  have hb := blink_warning_off blinks gpio
  unfold StatusIndication led_status
  simp only [STACK_CRITICAL_THRESHOLD, STACK_WARNING_THRESHOLD] at hcrit hwarn ⊢
  by_cases hc : (rs.foldl (fun f b => check_reading b f) (false, false)).2 = true
  · obtain ⟨r, hr, hlt⟩ := hcrit.mp hc
    simp only [hc, if_true]
    have hok : gpio_set_level LED_OK 0 (blink_warning (blinks + 1) gpio) LED_OK = 0 := by
      simp [gpio_set_level]
    have hwl : gpio_set_level LED_OK 0 (blink_warning (blinks + 1) gpio) LED_WARNING = 0 := by
      simp [gpio_set_level, Function.update, hb.1]
    rw [hok, hwl]
    refine ⟨?_, fun _ => rfl, fun _ => ⟨rfl, rfl⟩, ?_⟩
    · constructor
      · intro h
        exact absurd h (by decide)
      · intro h
        have := h r hr
        omega
    · intro _ hall
      have := hall r hr
      omega
  · have hnc : ¬ ∃ r ∈ rs, r < 256 := fun h => hc (hcrit.mpr h)
    simp only [hc, Bool.false_eq_true, if_false]
    by_cases hw : (rs.foldl (fun f b => check_reading b f) (false, false)).1 = true
    · obtain ⟨r, hr, hge, hlt⟩ := hwarn.mp hw
      simp only [hw, if_true]
      have hok : gpio_set_level LED_OK 0 (gpio_set_level LED_WARNING 1 gpio) LED_OK = 0 := by
        simp [gpio_set_level]
      have hwl : gpio_set_level LED_OK 0 (gpio_set_level LED_WARNING 1 gpio) LED_WARNING
          = 1 := by
        simp [gpio_set_level, Function.update]
      rw [hok, hwl]
      refine ⟨?_, ?_, fun h => absurd h hnc, fun _ _ => ⟨rfl, rfl⟩⟩
      · constructor
        · intro h
          exact absurd h (by decide)
        · intro h
          have := h r hr
          omega
      · intro h
        have := h r hr
        omega
    · have hnw : ¬ ∃ r ∈ rs, 256 ≤ r ∧ r < 512 := fun h => hw (hwarn.mpr h)
      have hall : ∀ r ∈ rs, 512 ≤ r := by
        intro r hr
        by_contra hlt
        by_cases hcr : r < 256
        · exact hnc ⟨r, hr, hcr⟩
        · exact hnw ⟨r, hr, by omega, by omega⟩
      simp only [hw, Bool.false_eq_true, if_false]
      have hok : gpio_set_level LED_WARNING 0 (gpio_set_level LED_OK 1 gpio) LED_OK = 1 := by
        simp [gpio_set_level, Function.update]
      have hwl : gpio_set_level LED_WARNING 0 (gpio_set_level LED_OK 1 gpio) LED_WARNING
          = 0 := by
        simp [gpio_set_level]
      rw [hok, hwl]
      refine ⟨⟨fun _ => hall, fun _ => rfl⟩, fun _ => rfl, fun h => absurd h hnc, ?_⟩
      intro ⟨r, hr, hlt⟩ _
      have := hall r hr
      omega

theorem stack_depth_eq (word_size depth_mod b : Nat) (hb : b < UINT32_MOD)
    (hd : UINT32_MOD ≤ depth_mod) :
    stack_depth word_size depth_mod b = max (b / word_size) (768 / word_size) := by
  have h1 : b / word_size ≤ b := Nat.div_le_self _ _
  have h2 : 768 / word_size ≤ 768 := Nat.div_le_self _ _
  have e1 : b / word_size % depth_mod = b / word_size :=
    Nat.mod_eq_of_lt (by simp only [UINT32_MOD] at hb hd; omega)
  have e2 : 768 / word_size % depth_mod = 768 / word_size :=
    Nat.mod_eq_of_lt (by simp only [UINT32_MOD] at hd; omega)
  simp only [stack_depth, BYTES_TO_WORDS, e1, e2]
  split
  · rename_i hlt
    exact (Nat.max_eq_right (Nat.le_of_lt hlt)).symm
  · rename_i hge
    exact (Nat.max_eq_left (Nat.le_of_not_lt hge)).symm

/-! ## Claims about the stack monitor -/

/-- C21. Stack-status indication: for all readings of the monitored tasks, at the end of
one pass of `stack_monitor_task` (of `ex1.c`, and of `lab3_step2.c` / `lab3_step3.c`) the
OK LED is on if and only if no reading is below 512 bytes, and then the warning LED is
off; with a reading below 256 bytes the OK LED is off and the warning LED is left off
after blinking; otherwise, with a reading in [256, 512), the warning LED is on and the OK
LED is off. -/
theorem stack_status_indication (word_size : Nat)
    (core_tasks test_handles tasks : Nat → Option Nat) (test_handle_count : Nat)
    (gpio : Nat → Nat) :
    StatusIndication
      (readings word_size core_tasks 3 ++ readings word_size test_handles test_handle_count)
      (stack_monitor_pass word_size core_tasks test_handles test_handle_count gpio) ∧
    StatusIndication (readings word_size tasks 4)
      (stack_monitor_pass_lab3 word_size tasks gpio) := by
  constructor
  · unfold stack_monitor_pass
    rw [report_loop_readings, report_loop_readings, ← List.foldl_append]
    exact led_status_indication 7 _ gpio
  · unfold stack_monitor_pass_lab3
    rw [report_loop_readings]
    exact led_status_indication 9 _ gpio

/-- C23. Minimum test-task stack: for every requested size `b` (a `uint32_t`) and every
word size `w` (so for every `w >= 1`), with a stack-depth type of at least 32 bits, the
depth that
`test_stack_sizes` passes to task creation is `max (b / w) (768 / w)`, never below
`768 / w`; for the two sizes requested, 2048 and 4096, it is `b / w` unchanged. -/
theorem minimum_test_stack (word_size depth_mod b : Nat) (created : Nat → Bool)
    (hb : b < UINT32_MOD) (hd : UINT32_MOD ≤ depth_mod) :
    stack_depth word_size depth_mod b = max (b / word_size) (768 / word_size) ∧
    768 / word_size ≤ stack_depth word_size depth_mod b ∧
    stack_depth word_size depth_mod 2048 = 2048 / word_size ∧
    stack_depth word_size depth_mod 4096 = 4096 / word_size ∧
    (test_stack_sizes word_size depth_mod created 0).2
      = [2048 / word_size, 4096 / word_size] := by
  have h768a : 768 / word_size ≤ 2048 / word_size := Nat.div_le_div_right (by decide)
  have h768b : 768 / word_size ≤ 4096 / word_size := Nat.div_le_div_right (by decide)
  have e1 : stack_depth word_size depth_mod 2048 = 2048 / word_size := by
    rw [stack_depth_eq word_size depth_mod 2048 (by decide) hd]
    exact Nat.max_eq_left h768a
  have e2 : stack_depth word_size depth_mod 4096 = 4096 / word_size := by
    rw [stack_depth_eq word_size depth_mod 4096 (by decide) hd]
    exact Nat.max_eq_left h768b
  refine ⟨stack_depth_eq word_size depth_mod b hb hd, ?_, e1, e2, ?_⟩
  · rw [stack_depth_eq word_size depth_mod b hb hd]
    exact Nat.le_max_right _ _
  · cases hc : created 0 <;>
      simp [test_stack_sizes, test_stack_sizes_loop, test_sizes_bytes, hc, e1, e2]

/-- Witness for C23: a request of 1000 bytes with 4-byte words and a 32-bit depth type. -/
theorem minimum_test_stack_witness :
    1000 < UINT32_MOD ∧ UINT32_MOD ≤ UINT32_MOD ∧
    stack_depth 4 UINT32_MOD 1000 = max (1000 / 4) (768 / 4) ∧
    (test_stack_sizes 4 UINT32_MOD (fun _ => true) 0).2 = [2048 / 4, 4096 / 4] :=
  have h := minimum_test_stack 4 UINT32_MOD 1000 (fun _ => true) (by decide) (Nat.le_refl _)
  ⟨by decide, Nat.le_refl _, h.1, h.2.2.2.2⟩

end StackMonitor

namespace Mutex

/-! ## The checksum -/

theorem checksum_loop_append_zero (p rest : List Nat) :
    ∀ (i sum : Nat), (∀ c ∈ p, c ≠ 0) →
      checksum_loop (p ++ 0 :: rest) i sum = checksum_loop p i sum := by
  induction p with
  | nil => intro i sum _; simp [checksum_loop]
  | cons c p ih =>
    intro i sum h
    have hc : c ≠ 0 := h c (List.mem_cons_self _ _)
    simp only [List.cons_append, checksum_loop, hc, if_false]
    exact ih _ _ (fun d hd => h d (List.mem_cons_of_mem _ hd))

theorem c_str_cons (c : Nat) (rest : List Nat) :
    c_str (c :: rest) = if c = 0 then [] else c :: c_str rest := by
  unfold c_str
  by_cases hc : c = 0
  · simp [hc]
  · simp [hc]

theorem checksum_loop_c_str (data : List Nat) :
    ∀ (i sum : Nat), checksum_loop data i sum = checksum_loop (c_str data) i sum := by
  induction data with
  | nil => intro i sum; rfl
  | cons c rest ih =>
    intro i sum
    rw [c_str_cons]
    by_cases hc : c = 0
    · simp [checksum_loop, hc]
    · simp only [checksum_loop, hc, if_false]
      exact ih _ _

theorem c_str_nonzero (data : List Nat) : ∀ c ∈ c_str data, c ≠ 0 := by
  intro c hc
  unfold c_str at hc
  have hp := List.mem_takeWhile_imp hc
  simpa using hp

theorem calculate_checksum_strcpy (dst src : List Nat) (counter : Nat) :
    calculate_checksum (strcpy dst src) counter = calculate_checksum src counter := by
  unfold calculate_checksum strcpy
  rw [checksum_loop_append_zero _ _ _ _ (c_str_nonzero src), ← checksum_loop_c_str]

/-- The loop adds to the running sum the bytes of the string weighted by their position. -/
theorem checksum_loop_sum (data : List Nat) :
    ∀ (i sum : Nat), sum < UINT32_MOD →
      checksum_loop data i sum
        = (sum + ∑ j ∈ Finset.range (c_str data).length,
            (c_str data).getD j 0 * (i + j + 1)) % UINT32_MOD := by
  induction data with
  | nil =>
    intro i sum hs
    simp [checksum_loop, c_str, Nat.mod_eq_of_lt hs]
  | cons c rest ih =>
    intro i sum hs
    rw [c_str_cons]
    by_cases hc : c = 0
    · simp [checksum_loop, hc, Nat.mod_eq_of_lt hs]
    · simp only [checksum_loop, hc, if_false]
      rw [ih (i + 1) _ (Nat.mod_lt _ (by decide)), List.length_cons, Finset.sum_range_succ']
      simp only [List.getD_cons_succ, List.getD_cons_zero, Nat.zero_add]
      have hsum : ∑ j ∈ Finset.range (c_str rest).length,
            (c_str rest).getD j 0 * (i + 1 + j + 1)
          = ∑ j ∈ Finset.range (c_str rest).length,
            (c_str rest).getD j 0 * (i + (j + 1) + 1) :=
        Finset.sum_congr rfl (fun j _ => by
          have : i + 1 + j + 1 = i + (j + 1) + 1 := by omega
          rw [this])
      rw [hsum]
      have hmul : (c * (i + 1)) % UINT32_MOD
          = ((c % UINT32_MOD) * ((i + 1) % UINT32_MOD)) % UINT32_MOD := Nat.mul_mod _ _ _
      generalize ∑ j ∈ Finset.range (c_str rest).length,
        (c_str rest).getD j 0 * (i + (j + 1) + 1) = x
      generalize c * (i + 1) = y at hmul ⊢
      generalize (c % UINT32_MOD) * ((i + 1) % UINT32_MOD) = z at hmul ⊢
      simp only [UINT32_MOD] at hmul ⊢
      omega

/-! ## Phases on coherent data -/

theorem read_phase_locals (l : Locals) (g : Globals) :
    (read_phase l g).1.temp_counter = g.shared_data.counter ∧
    (read_phase l g).2.shared_data = g.shared_data := by
  unfold read_phase
  refine ⟨rfl, ?_⟩
  simp only
  split <;> rfl

theorem read_phase_coherent (l : Locals) (g : Globals) (h : Coherent g) :
    (read_phase l g).2 = g := by
  unfold Coherent at h
  unfold read_phase
  simp only [calculate_checksum_strcpy, ← h, ne_eq, not_true_eq_false, false_and, if_false]

theorem monitor_check_coherent (g : Globals) (h : Coherent g) : monitor_check g = g := by
  unfold Coherent at h
  unfold monitor_check
  simp only [← h, ne_eq, not_true_eq_false, false_and, if_false]

theorem write_phase_coherent (name : List Nat) (l : Locals) (g : Globals) :
    Coherent (write_phase name l g) ∧ (write_phase name l g).stats = g.stats :=
  ⟨rfl, rfl⟩

theorem system_step_coherent (s : System) (a : Actor)
    (h : Coherent s.g ∧ s.g.stats.corruption_detected = 0) :
    Coherent (system_step s a).g ∧ (system_step s a).g.stats.corruption_detected = 0 := by
  cases a with
  | monitor =>
    simp only [system_step]
    rw [monitor_check_coherent s.g h.1]
    exact h
  | task t =>
    simp only [system_step]
    cases hpc : s.pc t with
    | idle => exact h
    | entered =>
      simp only
      rw [read_phase_coherent (s.locals t) s.g h.1]
      exact h
    | read_done => exact ⟨rfl, h.2⟩
    | written => exact h

theorem run_coherent (schedule : List Actor) :
    ∀ s : System, (Coherent s.g ∧ s.g.stats.corruption_detected = 0) →
      Coherent (run s schedule).g ∧ (run s schedule).g.stats.corruption_detected = 0 := by
  induction schedule with
  | nil => intro s h; exact h
  | cons a schedule ih =>
    intro s h
    exact ih (system_step s a) (system_step_coherent s a h)

/-! ## Claims about the shared resource -/

/-- C27. Checksum consistency without interleaved writes: after the initialisation of
`app_main`, and after the write phase of `access_shared_resource` from any state with any
locals, `checksum` equals `calculate_checksum(shared_buffer, counter)`; hence along every
schedule of the three tasks and the monitor that interleaves only at whole phases the data
stay coherent, no corruption is counted, and neither the check before modifying nor the
monitor's check changes the globals. -/
theorem checksum_consistency (g : Globals) (name : List Nat) (l l1 : Locals)
    (locals : Fin 3 → Locals) (schedule : List Actor) :
    Coherent (app_main_init g) ∧
    Coherent (write_phase name l g) ∧
    Coherent (run (system_init locals) schedule).g ∧
    (run (system_init locals) schedule).g.stats.corruption_detected = 0 ∧
    (read_phase l1 (run (system_init locals) schedule).g).2
      = (run (system_init locals) schedule).g ∧
    monitor_check (run (system_init locals) schedule).g
      = (run (system_init locals) schedule).g := by
  have hrun := run_coherent schedule (system_init locals) ⟨rfl, rfl⟩
  exact ⟨rfl, rfl, hrun.1, hrun.2, read_phase_coherent _ _ hrun.1,
    monitor_check_coherent _ hrun.1⟩

/-- C28, as stated, fails: from a state with `counter = 4294967295`, two accesses that both
read before either writes leave `counter = 0`, not `4294967295 + 1`. -/
theorem lost_update_counterexample :
    globals_last_count.shared_data.counter = 4294967295 ∧
    (interleaved_access (ascii "HIGH_PRI") (ascii "LOW_PRI") locals_zero locals_zero
      globals_last_count).shared_data.counter = 0 ∧
    (interleaved_access (ascii "HIGH_PRI") (ascii "LOW_PRI") locals_zero locals_zero
      globals_last_count).shared_data.counter ≠ globals_last_count.shared_data.counter + 1 := by
  decide

/-- C28, amended. Lost update without the mutex: for every state with counter `c`, if two
tasks both complete the read phase (each saving `temp_counter = c`) before either performs
its write phase, then after both write phases `counter` is `c + 1` modulo `2 ^ 32` while
`access_count` has increased by 2 modulo `2 ^ 32`; when the two accesses run one after the
other, `counter` is `c + 2` modulo `2 ^ 32`. -/
theorem lost_update (name1 name2 : List Nat) (l1 l2 : Locals) (g : Globals) :
    (read_phase l1 g).1.temp_counter = g.shared_data.counter ∧
    (read_phase l2 (read_phase l1 g).2).1.temp_counter = g.shared_data.counter ∧
    (interleaved_access name1 name2 l1 l2 g).shared_data.counter
      = (g.shared_data.counter + 1) % UINT32_MOD ∧
    (interleaved_access name1 name2 l1 l2 g).shared_data.access_count
      = (g.shared_data.access_count + 2) % UINT32_MOD ∧
    (sequential_access name1 name2 l1 l2 g).shared_data.counter
      = (g.shared_data.counter + 2) % UINT32_MOD ∧
    (sequential_access name1 name2 l1 l2 g).shared_data.access_count
      = (g.shared_data.access_count + 2) % UINT32_MOD := by
  have h1 := read_phase_locals l1 g
  have h2 := read_phase_locals l2 (read_phase l1 g).2
  have h3 := read_phase_locals l2 (write_phase name1 (read_phase l1 g).1 (read_phase l1 g).2)
  have e2 : (read_phase l2 (read_phase l1 g).2).1.temp_counter = g.shared_data.counter := by
    rw [h2.1, h1.2]
  refine ⟨h1.1, e2, ?_, ?_, ?_, ?_⟩
  · show ((read_phase l2 (read_phase l1 g).2).1.temp_counter + 1) % UINT32_MOD = _
    rw [e2]
  · show (((read_phase l2 (read_phase l1 g).2).2.shared_data.access_count + 1) % UINT32_MOD
      + 1) % UINT32_MOD = _
    rw [h2.2, h1.2]
    simp only [UINT32_MOD]
    omega
  · show ((read_phase l2 (write_phase name1 (read_phase l1 g).1
      (read_phase l1 g).2)).1.temp_counter + 1) % UINT32_MOD = _
    rw [h3.1]
    show (((read_phase l1 g).1.temp_counter + 1) % UINT32_MOD + 1) % UINT32_MOD = _
    rw [h1.1]
    simp only [UINT32_MOD]
    omega
  · show ((read_phase l2 (write_phase name1 (read_phase l1 g).1
      (read_phase l1 g).2)).2.shared_data.access_count + 1) % UINT32_MOD = _
    rw [h3.2]
    show (((read_phase l1 g).2.shared_data.access_count + 1) % UINT32_MOD + 1) % UINT32_MOD
      = _
    rw [h1.2]
    simp only [UINT32_MOD]
    omega

/-- C30. Checksum definition: for every string and every 32-bit counter,
`calculate_checksum` is the counter plus the sum of the bytes of the string, each multiplied
by its position counted from 1, modulo `2 ^ 32`; so for a fixed string increasing the counter
by 1 increases the checksum by 1 modulo `2 ^ 32`, and two different 32-bit counters never
give the same checksum. -/
theorem checksum_definition (data : List Nat) (counter counter2 : Nat)
    (hc : counter < UINT32_MOD) (hc2 : counter2 < UINT32_MOD) (hne : counter2 ≠ counter) :
    calculate_checksum data counter
      = (counter + ∑ i ∈ Finset.range (c_str data).length,
          (c_str data).getD i 0 * (i + 1)) % UINT32_MOD ∧
    calculate_checksum data ((counter + 1) % UINT32_MOD)
      = (calculate_checksum data counter + 1) % UINT32_MOD ∧
    calculate_checksum data counter2 ≠ calculate_checksum data counter := by
  have hsum : ∀ c : Nat, c < UINT32_MOD → calculate_checksum data c
      = (c + ∑ i ∈ Finset.range (c_str data).length,
          (c_str data).getD i 0 * (i + 1)) % UINT32_MOD := by
    intro c hlt
    unfold calculate_checksum
    rw [checksum_loop_sum data 0 c hlt]
    simp only [Nat.zero_add]
  rw [hsum counter hc, hsum counter2 hc2, hsum _ (Nat.mod_lt _ (by decide))]
  generalize ∑ i ∈ Finset.range (c_str data).length, (c_str data).getD i 0 * (i + 1) = x
  simp only [UINT32_MOD] at hc hc2 ⊢
  refine ⟨trivial, ?_, ?_⟩
  · omega
  · omega

/-- Witness for C30: the string "AB" with the counters 5 and 6. -/
theorem checksum_definition_witness :
    (5 : Nat) < UINT32_MOD ∧ (6 : Nat) < UINT32_MOD ∧
    calculate_checksum (ascii "AB") 5
      = (5 + ∑ i ∈ Finset.range (c_str (ascii "AB")).length,
          (c_str (ascii "AB")).getD i 0 * (i + 1)) % UINT32_MOD ∧
    calculate_checksum (ascii "AB") 6 ≠ calculate_checksum (ascii "AB") 5 :=
  have h := checksum_definition (ascii "AB") 5 6 (by decide) (by decide) (by decide)
  ⟨by decide, by decide, h.1, h.2.2⟩

end Mutex
